import Mathlib

/-!
Verification development for the GPU VM bind/unbind test surface of
igt-gpu-tools.  Part 1 embeds the pure tiling/stride helpers of
`lib/intel_blt.c` and `lib/intel_bufops.c` (uint32 C semantics, overflow
modelled as `% 2^32`).  Part 2 embeds the block-copy batch emitter of
`lib/intel_blt.c`.  Part 3 models the xe VM bind/unbind engine from the
specification (the engine itself lives in the kernel driver; only its
exercisers `tests/intel/xe_vm.c` are in this repository).
-/

namespace IgtBlt

/-- The modulus of C `uint32_t` arithmetic. -/
def U32 : Nat := 4294967296

/-- C `enum blt_tiling_type` from intel_blt.h.  `intel_blt.c` carries
static asserts that the linear/X/Y/Yf values match the corresponding
`I915_TILING_*` codes. -/
inductive BltTilingType where
  | T_LINEAR
  | T_XMAJOR
  | T_YMAJOR
  | T_TILE4
  | T_YFMAJOR
  | T_YSMAJOR
  | T_TILE64
deriving DecidableEq, Repr

/-- The i915 tiling codes (`I915_TILING_NONE/X/Y/4/64/Yf/Ys`) as switched on
by `__get_min_stride` and `i915_tile_to_blt_tile`. -/
inductive I915Tiling where
  | NONE
  | X
  | Y
  | T4
  | T64
  | Yf
  | Ys
deriving DecidableEq, Repr

/-- The igt `ALIGN(v, a)` macro under uint32 semantics, for a power-of-two
alignment `a`: `(v + a - 1) & ~(a - 1)` clears the low bits of the 32-bit
value `v + a - 1`, which equals rounding `(v + a - 1) mod 2^32` down to a
multiple of `a`. -/
def ALIGN (v a : Nat) : Nat := (v + a - 1) % U32 / a * a

/-- `blt_get_min_stride` from lib/intel_blt.c (uint32 semantics:
`width * bpp / 8` truncates at 2^32 before the division). -/
def blt_get_min_stride (width bpp : Nat) (tiling : BltTilingType) : Nat :=
  match tiling with
  | .T_LINEAR => width * bpp % U32 / 8
  | .T_XMAJOR => ALIGN (width * bpp % U32 / 8) 512
  | .T_TILE64 =>
      if bpp == 8 then ALIGN width 256
      else if bpp == 16 || bpp == 32 then ALIGN (width * bpp % U32 / 8) 512
      else ALIGN (width * bpp % U32 / 8) 1024
  | _ => ALIGN (width * bpp % U32 / 8) 128

/-- `blt_get_aligned_height` from lib/intel_blt.c. -/
def blt_get_aligned_height (height bpp : Nat) (tiling : BltTilingType) : Nat :=
  match tiling with
  | .T_LINEAR => height
  | .T_XMAJOR => ALIGN height 8
  | .T_TILE64 =>
      if bpp == 8 then ALIGN height 256
      else if bpp == 16 || bpp == 32 then ALIGN height 128
      else ALIGN height 64
  | _ => ALIGN height 32

/-- `__get_min_stride` from lib/intel_bufops.c (switches on the i915 tiling
code instead of `enum blt_tiling_type`). -/
def bufops_get_min_stride (width bpp : Nat) (tiling : I915Tiling) : Nat :=
  match tiling with
  | .NONE => width * bpp % U32 / 8
  | .X => ALIGN (width * bpp % U32 / 8) 512
  | .T64 =>
      if bpp == 8 then ALIGN width 256
      else if bpp == 16 || bpp == 32 then ALIGN (width * bpp % U32 / 8) 512
      else ALIGN (width * bpp % U32 / 8) 1024
  | _ => ALIGN (width * bpp % U32 / 8) 128

/-- `__get_aligned_height` from lib/intel_bufops.c. -/
def bufops_get_aligned_height (height bpp : Nat) (tiling : I915Tiling) : Nat :=
  match tiling with
  | .NONE => height
  | .X => ALIGN height 8
  | .T64 =>
      if bpp == 8 then ALIGN height 256
      else if bpp == 16 || bpp == 32 then ALIGN height 128
      else ALIGN height 64
  | _ => ALIGN height 32

/-- `i915_tile_to_blt_tile` from lib/intel_blt.c. -/
def i915_tile_to_blt_tile : I915Tiling → BltTilingType
  | .NONE => .T_LINEAR
  | .X => .T_XMAJOR
  | .Y => .T_YMAJOR
  | .T4 => .T_TILE4
  | .T64 => .T_TILE64
  | .Yf => .T_YFMAJOR
  | .Ys => .T_YSMAJOR

/-- Mathematical round-up of `x` to the next multiple of `k` (the
specification's "rounded up to" wording; no wraparound). -/
def roundUp (x k : Nat) : Nat := (x + k - 1) / k * k

/-- The per-claim specification of `min_stride`, written from the
specification's words: linear gives `width * bpp / 8`; X-major rounds the
linear stride up to 512 bytes; Tile64 selects the rounding by bpp
(256 bytes for bpp 8, 512 for bpp 16/32, 1024 otherwise); every other
tiling rounds up to 128 bytes. -/
def minStrideSpec (width bpp : Nat) (tiling : BltTilingType) : Nat :=
  match tiling with
  | .T_LINEAR => width * bpp / 8
  | .T_XMAJOR => roundUp (width * bpp / 8) 512
  | .T_TILE64 =>
      if bpp = 8 then roundUp (width * bpp / 8) 256
      else if bpp = 16 ∨ bpp = 32 then roundUp (width * bpp / 8) 512
      else roundUp (width * bpp / 8) 1024
  | _ => roundUp (width * bpp / 8) 128

/-- The per-claim specification of `aligned_height`, written from the
specification's words: linear leaves the height unchanged; X-major rounds
up to 8 rows; Tile64 rounds up to 256, 128 or 64 rows for bpp 8, 16/32 and
larger respectively; every other tiling rounds up to 32 rows. -/
def alignedHeightSpec (height bpp : Nat) (tiling : BltTilingType) : Nat :=
  match tiling with
  | .T_LINEAR => height
  | .T_XMAJOR => roundUp height 8
  | .T_TILE64 =>
      if bpp = 8 then roundUp height 256
      else if bpp = 16 ∨ bpp = 32 then roundUp height 128
      else roundUp height 64
  | _ => roundUp height 32

/-- Place value `v`, truncated to `w` bits, at bit offset `lo` of a dword
(the C bitfield assignment `field : BITRANGE(lo, lo+w-1) = v`). -/
def field (v lo w : Nat) : Nat := v % 2 ^ w * 2 ^ lo

/-- C uint32 decrement `v - 1` (wraps at zero). -/
def sub1 (v : Nat) : Nat := (v + (U32 - 1)) % U32

def bit (b : Bool) : Nat := if b then 1 else 0

/-- `IP_VER(ver, rel)` from the i915/xe headers: `ver << 16 | rel`. -/
def IP_VER (ver rel : Nat) : Nat := ver * 65536 + rel

/-- `MI_BATCH_BUFFER_END` (`0xA << 23`). -/
def MI_BATCH_BUFFER_END : Nat := 0x05000000

/-- The fields of `struct blt_copy_object` that `fill_data` reads.  The
region validity checks of `__memory_type`/`__aux_mode` are represented by
`region_is_device` (device-local versus system memory); `plane_offset` is
added to the allocator-resolved base address by `emit_blt_block_copy`. -/
structure BltCopyObject where
  handle : Nat
  pitch : Nat
  mocs_index : Nat
  tiling : BltTilingType
  compression : Bool
  compression_type : Nat
  x1 : Nat
  y1 : Nat
  x2 : Nat
  y2 : Nat
  x_offset : Nat
  y_offset : Nat
  region_is_device : Bool
  plane_offset : Nat
deriving DecidableEq, Repr

/-- The fields of `struct blt_copy_data` that `emit_blt_block_copy` and
`fill_data` read; `bb_size` is `blt->bb.size`, the batch capacity. -/
structure BltCopyData where
  color_depth : Nat
  src : BltCopyObject
  dst : BltCopyObject
  bb_size : Nat
deriving DecidableEq, Repr

/-- One side of `struct blt_block_copy_data_ext` as read by `fill_data_ext`. -/
structure BltCopyObjectExt where
  compression_format : Nat
  clear_value_enable : Bool
  clear_address : Nat
  surface_width : Nat
  surface_height : Nat
  surface_type : Nat
  lod : Nat
  surface_qpitch : Nat
  surface_depth : Nat
  horizontal_align : Nat
  vertical_align : Nat
  mip_tail_start_lod : Nat
  depth_stencil_resource : Bool
  array_index : Nat
deriving DecidableEq, Repr

structure BltBlockCopyDataExt where
  src : BltCopyObjectExt
  dst : BltCopyObjectExt
deriving DecidableEq, Repr

/-- `__special_mode` from lib/intel_blt.c (`SM_NONE = 0`,
`SM_FULL_RESOLVE = 1`). -/
def special_mode (blt : BltCopyData) : Nat :=
  if blt.src.handle == blt.dst.handle && blt.src.compression &&
     !blt.dst.compression then 1 else 0

/-- `__aux_mode` from lib/intel_blt.c (`AM_AUX_NONE = 0`,
`AM_AUX_CCS_E = 5`); compression is only legal on device memory, which the
source asserts and this embedding assumes. -/
def aux_mode (obj : BltCopyObject) : Nat :=
  if obj.compression then 5 else 0

/-- `__memory_type` from lib/intel_blt.c (`TM_LOCAL_MEM = 0`,
`TM_SYSTEM_MEM = 1`). -/
def memory_type (obj : BltCopyObject) : Nat :=
  if obj.region_is_device then 0 else 1

/-- `__block_tiling` from lib/intel_blt.c (the warn-and-return-0 default
covers `T_YSMAJOR`). -/
def block_tiling : BltTilingType → Nat
  | .T_LINEAR => 0
  | .T_XMAJOR => 1
  | .T_YMAJOR => 1
  | .T_TILE4 => 2
  | .T_YFMAJOR => 2
  | .T_TILE64 => 3
  | .T_YSMAJOR => 0

/-- `struct gen12_block_copy_data`: a 12-dword (48-byte) instruction
record. -/
structure BlockCopyData where
  dw00 : Nat
  dw01 : Nat
  dw02 : Nat
  dw03 : Nat
  dw04 : Nat
  dw05 : Nat
  dw06 : Nat
  dw07 : Nat
  dw08 : Nat
  dw09 : Nat
  dw10 : Nat
  dw11 : Nat
deriving DecidableEq, Repr

def BlockCopyData.toList (d : BlockCopyData) : List Nat :=
  [d.dw00, d.dw01, d.dw02, d.dw03, d.dw04, d.dw05, d.dw06, d.dw07, d.dw08,
   d.dw09, d.dw10, d.dw11]

/-- `struct gen12_block_copy_data_ext`: a 10-dword (40-byte) extended
record. -/
structure BlockCopyDataExt where
  dw12 : Nat
  dw13 : Nat
  dw14 : Nat
  dw15 : Nat
  dw16 : Nat
  dw17 : Nat
  dw18 : Nat
  dw19 : Nat
  dw20 : Nat
  dw21 : Nat
deriving DecidableEq, Repr

def BlockCopyDataExt.toList (d : BlockCopyDataExt) : List Nat :=
  [d.dw12, d.dw13, d.dw14, d.dw15, d.dw16, d.dw17, d.dw18, d.dw19, d.dw20,
   d.dw21]

/-- `fill_data` from lib/intel_blt.c: packs the 12-dword block-copy record.
The `dw01`/`dw08` layouts switch on `ip_ver >= IP_VER(20, 0)`. -/
def fill_data (blt : BltCopyData) (src_offset dst_offset : Nat)
    (extended_command : Bool) (ipVer : Nat) : BlockCopyData :=
  let sm := special_mode blt
  { dw00 := field (if extended_command then 20 else 10) 0 8 + field sm 12 2 +
      field blt.color_depth 19 3 + field 0x41 22 7 + field 0x2 29 3
  , dw01 :=
      if IP_VER 20 0 ≤ ipVer then
        field (sub1 blt.dst.pitch) 0 18 + field blt.dst.mocs_index 22 6 +
          field (block_tiling blt.dst.tiling) 30 2
      else
        field (sub1 blt.dst.pitch) 0 18 +
          field (if sm == 1 then aux_mode blt.src else aux_mode blt.dst) 18 3 +
          field blt.dst.mocs_index 22 6 +
          field (bit blt.dst.compression) 29 1 +
          (if blt.dst.compression then field blt.dst.compression_type 28 1
           else 0) +
          field (block_tiling blt.dst.tiling) 30 2
  , dw02 := field blt.dst.x1 0 16 + field blt.dst.y1 16 16
  , dw03 := field blt.dst.x2 0 16 + field blt.dst.y2 16 16
  , dw04 := dst_offset % U32
  , dw05 := dst_offset / U32 % U32
  , dw06 := field blt.dst.x_offset 0 14 + field blt.dst.y_offset 16 14 +
      field (memory_type blt.dst) 31 1
  , dw07 := field blt.src.x1 0 16 + field blt.src.y1 16 16
  , dw08 :=
      if IP_VER 20 0 ≤ ipVer then
        field (sub1 blt.src.pitch) 0 18 + field blt.src.mocs_index 24 4 +
          field (block_tiling blt.src.tiling) 30 2
      else
        field (sub1 blt.src.pitch) 0 18 + field (aux_mode blt.src) 18 3 +
          field blt.src.mocs_index 22 6 +
          field (bit blt.src.compression) 29 1 +
          (if blt.src.compression then field blt.src.compression_type 28 1
           else 0) +
          field (block_tiling blt.src.tiling) 30 2
  , dw09 := src_offset % U32
  , dw10 := src_offset / U32 % U32
  , dw11 := field blt.src.x_offset 0 14 + field blt.src.y_offset 16 14 +
      field (memory_type blt.src) 31 1 }

/-- `fill_data_ext` from lib/intel_blt.c: packs the 10-dword extended
record. -/
def fill_data_ext (ext : BltBlockCopyDataExt) : BlockCopyDataExt :=
  { dw12 := field ext.src.compression_format 0 5 +
      field (bit ext.src.clear_value_enable) 5 1 +
      field ext.src.clear_address 6 26
  , dw13 := ext.src.clear_address / U32 % U32
  , dw14 := field ext.dst.compression_format 0 5 +
      field (bit ext.dst.clear_value_enable) 5 1 +
      field ext.dst.clear_address 6 26
  , dw15 := ext.dst.clear_address / U32 % U32
  , dw16 := field (sub1 ext.dst.surface_height) 0 14 +
      field (sub1 ext.dst.surface_width) 14 14 +
      field ext.dst.surface_type 29 3
  , dw17 := field ext.dst.lod 0 4 + field ext.dst.surface_qpitch 4 15 +
      field ext.dst.surface_depth 21 11
  , dw18 := field ext.dst.horizontal_align 0 2 +
      field ext.dst.vertical_align 3 2 +
      field ext.dst.mip_tail_start_lod 8 4 +
      field (bit ext.dst.depth_stencil_resource) 18 1 +
      field ext.dst.array_index 21 11
  , dw19 := field (sub1 ext.src.surface_height) 0 14 +
      field (sub1 ext.src.surface_width) 14 14 +
      field ext.src.surface_type 29 3
  , dw20 := field ext.src.lod 0 4 + field ext.src.surface_qpitch 4 15 +
      field ext.src.surface_depth 21 11
  , dw21 := field ext.src.horizontal_align 0 2 +
      field ext.src.vertical_align 3 2 +
      field ext.src.mip_tail_start_lod 8 4 +
      field (bit ext.src.depth_stencil_resource) 18 1 +
      field ext.src.array_index 21 11 }

/-- Write one dword at byte position `pos` of the batch memory
(little-endian, as `memcpy` of a `uint32_t` on this target). -/
def writeDword (mem : Nat → Nat) (pos d : Nat) : Nat → Nat := fun i =>
  if i = pos then d % 256
  else if i = pos + 1 then d / 256 % 256
  else if i = pos + 2 then d / 65536 % 256
  else if i = pos + 3 then d / 16777216 % 256
  else mem i

/-- `memcpy` of a packed sequence of dwords at byte position `pos`. -/
def writeDwords (mem : Nat → Nat) (pos : Nat) : List Nat → (Nat → Nat)
  | [] => mem
  | d :: ds => writeDwords (writeDword mem pos d) (pos + 4) ds

/-- Outcome of `emit_blt_block_copy`: `ok` returns the next write position
(the C return value); `overflow` models an `igt_assert` capacity-check
failure, carrying the batch memory and cursor at the failed check. -/
inductive EmitResult where
  | ok (mem : Nat → Nat) (pos : Nat)
  | overflow (mem : Nat → Nat) (pos : Nat)

/-- `emit_blt_block_copy` from lib/intel_blt.c.  The allocator-resolved
base addresses of the source and destination objects are passed as
`srcAlloc`/`dstAlloc` (`get_offset_pat_index(ahnd, ...)` in the source);
`plane_offset` is added as in the source.  Each record write is guarded by
`igt_assert(bb_pos + sizeof(record) < blt->bb.size)` — a strict
less-than. -/
def emit_blt_block_copy (ipVer : Nat) (blt : BltCopyData)
    (ext : Option BltBlockCopyDataExt) (srcAlloc dstAlloc bbPos : Nat)
    (emitBbe : Bool) (mem : Nat → Nat) : EmitResult :=
  let src_offset := srcAlloc + blt.src.plane_offset
  let dst_offset := dstAlloc + blt.dst.plane_offset
  let data := fill_data blt src_offset dst_offset ext.isSome ipVer
  if bbPos + 48 < blt.bb_size then
    let mem1 := writeDwords mem bbPos data.toList
    let pos1 := bbPos + 48
    match ext with
    | some e =>
      let dext := fill_data_ext e
      if pos1 + 40 < blt.bb_size then
        let mem2 := writeDwords mem1 pos1 dext.toList
        let pos2 := pos1 + 40
        if emitBbe then
          if pos2 + 4 < blt.bb_size then
            .ok (writeDword mem2 pos2 MI_BATCH_BUFFER_END) (pos2 + 4)
          else .overflow mem2 pos2
        else .ok mem2 pos2
      else .overflow mem1 pos1
    | none =>
      if emitBbe then
        if pos1 + 4 < blt.bb_size then
          .ok (writeDword mem1 pos1 MI_BATCH_BUFFER_END) (pos1 + 4)
        else .overflow mem1 pos1
      else .ok mem1 pos1
  else .overflow mem bbPos

/-- An all-zero `blt_copy_object`. -/
def zeroObj : BltCopyObject :=
  { handle := 0, pitch := 0, mocs_index := 0, tiling := .T_LINEAR,
    compression := false, compression_type := 0, x1 := 0, y1 := 0, x2 := 0,
    y2 := 0, x_offset := 0, y_offset := 0, region_is_device := true,
    plane_offset := 0 }

/-- A `blt_copy_data` whose batch capacity is exactly one 48-byte
block-copy record. -/
def bltCap48 : BltCopyData :=
  { color_depth := 0, src := zeroObj, dst := zeroObj, bb_size := 48 }

/-- A `blt_copy_data` whose batch capacity is exactly one 48-byte record
plus one 40-byte extended record. -/
def bltCap88 : BltCopyData :=
  { color_depth := 0, src := zeroObj, dst := zeroObj, bb_size := 88 }

/-- An all-zero extended-surface descriptor. -/
def zeroObjExt : BltCopyObjectExt :=
  { compression_format := 0, clear_value_enable := false, clear_address := 0,
    surface_width := 0, surface_height := 0, surface_type := 0, lod := 0,
    surface_qpitch := 0, surface_depth := 0, horizontal_align := 0,
    vertical_align := 0, mip_tail_start_lod := 0,
    depth_stencil_resource := false, array_index := 0 }

def zeroExt : BltBlockCopyDataExt := { src := zeroObjExt, dst := zeroObjExt }

end IgtBlt

namespace XeVm

/-!
Modelled from the spec: the VM bind/unbind engine itself is the xe kernel
driver, which is not part of this repository; only its exercisers
(tests/intel/xe_vm.c) are in src/.  The model below follows §3–§5 and §7 of
the specification, with the error behaviour pinned by what the tests
assert (`bind_flag_invalid`, `userptr_invalid`, `test_bind_array`,
`test_partial_unbinds`, `test_munmap_style_unbind`,
`test_mmap_style_bind`).
-/

/-- Modelled from the spec: a Mapping is one bound interval
`[start, start + len)` of GPU virtual address space.  `backing` is the
buffer-object handle, or the registered host base address when `userptr`
is set; `backingOffset` is the offset into that backing resource;
`isNull` marks a sparse mapping with no backing. -/
structure Mapping where
  start : Nat
  len : Nat
  userptr : Bool
  backing : Nat
  backingOffset : Nat
  isNull : Bool
deriving DecidableEq, Repr

def Mapping.stop (m : Mapping) : Nat := m.start + m.len

/-- Modelled from the spec: the state of one VirtualMachine — its Mapping
set plus the contents of backing memory (buffer-object cells addressed by
handle and byte offset, and host cells addressed by host address). -/
structure VMState where
  mappings : List Mapping
  boMem : Nat → Nat → Nat
  hostMem : Nat → Nat

/-- The `DRM_XE_VM_BIND_FLAG_*` bits accepted by the driver, as exercised
by `bind_flag_invalid` in tests/intel/xe_vm.c: READONLY, IMMEDIATE, NULL,
DUMPABLE and CHECK_PXP occupy bits 0..4, so a flags word is valid exactly
when it is below 32. -/
def DRM_XE_VM_BIND_FLAG_READONLY : Nat := 1

def DRM_XE_VM_BIND_FLAG_IMMEDIATE : Nat := 2

def DRM_XE_VM_BIND_FLAG_NULL : Nat := 4

def DRM_XE_VM_BIND_FLAG_DUMPABLE : Nat := 8

def DRM_XE_VM_BIND_FLAG_CHECK_PXP : Nat := 16

/-- Modelled from the spec: one bind/unbind operation
(`struct drm_xe_vm_bind_op`), restricted to the shapes the claims need. -/
inductive BindOp where
  | map (bo boOffset addr len flags : Nat)
  | mapUserptr (hostAddr addr len flags : Nat)
  | unmap (addr len : Nat)
  | unmapAll (bo : Nat)
deriving DecidableEq, Repr

/-- Modelled from the spec (§7): the closed set of distinguishable error
kinds the tests assert on. -/
inductive VmErr where
  | EINVAL
  | EFAULT
  | ENOBUFS
deriving DecidableEq, Repr

/-- Modelled from the spec: page size used for the alignment validation of
bind/unbind addresses and lengths. -/
def pageSize : Nat := 4096

/-- Does the half-open interval `[a, a + l)` overlap mapping `m`? -/
def overlapsRange (a l : Nat) (m : Mapping) : Bool :=
  decide (a < m.stop) && decide (m.start < a + l)

/-- Modelled from the spec: the munmap-style clip of one Mapping against an
unbound range `[a, a + l)` — a disjoint Mapping survives untouched, a
wholly contained one is removed, and a partial overlap leaves a front
and/or back remainder with the backing offset advanced by the distance
from the original start. -/
def clipMapping (a l : Nat) (m : Mapping) : List Mapping :=
  if overlapsRange a l m then
    (if m.start < a then [{ m with len := a - m.start }] else []) ++
    (if a + l < m.stop then
      [{ m with start := a + l, len := m.stop - (a + l),
                backingOffset := m.backingOffset + (a + l - m.start) }]
     else [])
  else [m]

/-- Modelled from the spec: remove coverage of `[a, a + l)` from every
Mapping in the list, preserving order. -/
def removeRange (a l : Nat) : List Mapping → List Mapping
  | [] => []
  | m :: ms => clipMapping a l m ++ removeRange a l ms

/-- The Mapping created by a MAP bind; `DRM_XE_VM_BIND_FLAG_NULL` (bit 2)
makes it a sparse mapping with no backing. -/
def mkMapping (bo boOffset addr len flags : Nat) : Mapping :=
  { start := addr, len := len, userptr := false, backing := bo,
    backingOffset := boOffset, isNull := Nat.testBit flags 2 }

/-- The Mapping created by a MAP_USERPTR bind. -/
def mkUserptrMapping (hostAddr addr len : Nat) : Mapping :=
  { start := addr, len := len, userptr := true, backing := hostAddr,
    backingOffset := 0, isNull := false }

/-- Modelled from the spec: the effect of one completed (fence-signaled)
operation on a VM.  A MAP first removes the overlapped portion of any
prior Mapping, then installs the new Mapping; UNMAP is the munmap-style
removal; UNMAP_ALL drops every Mapping whose backing object is `bo`. -/
def VMState.applyOp (s : VMState) (op : BindOp) : VMState :=
  match op with
  | .map bo boOffset addr len flags =>
      { s with mappings :=
          removeRange addr len s.mappings ++ [mkMapping bo boOffset addr len flags] }
  | .mapUserptr hostAddr addr len _flags =>
      { s with mappings :=
          removeRange addr len s.mappings ++ [mkUserptrMapping hostAddr addr len] }
  | .unmap addr len => { s with mappings := removeRange addr len s.mappings }
  | .unmapAll bo =>
      { s with mappings :=
          s.mappings.filter (fun m => m.userptr || m.isNull || m.backing != bo) }

/-- Modelled from the spec: an engine instance — one VM with one in-order
bind queue of submitted-but-not-yet-signaled operations, the driver's
internal queue depth (the `ENOBUFS` bound), the CPU-side view of which
host addresses are mapped and which are resident, and a sticky
asynchronous-fault flag (the fence error channel). -/
structure Engine where
  vm : VMState
  queue : List BindOp
  depth : Nat
  hostMapped : Nat → Bool
  hostResident : Nat → Bool
  faulted : Bool

/-- Every byte of `[base, base + len)` satisfies `f`. -/
def rangeAll (f : Nat → Bool) (base len : Nat) : Bool :=
  (List.range len).all (fun i => f (base + i))

/-- Modelled from the spec (§4.2, §7) and pinned by the tests: synchronous
validation of one operation.  Zero-length or unaligned ranges and
undefined flag bits fail with EINVAL (`bind_flag_invalid`); a userptr bind
whose host range has no CPU mapping fails with EFAULT (`userptr_invalid`).
Host residency is deliberately not checked: it may be established
lazily. -/
def Engine.validateOp (e : Engine) (op : BindOp) : Option VmErr :=
  match op with
  | .map _ _ addr len flags =>
      if len = 0 then some .EINVAL
      else if addr % pageSize ≠ 0 ∨ len % pageSize ≠ 0 then some .EINVAL
      else if 32 ≤ flags then some .EINVAL
      else none
  | .mapUserptr hostAddr addr len flags =>
      if len = 0 then some .EINVAL
      else if addr % pageSize ≠ 0 ∨ len % pageSize ≠ 0 then some .EINVAL
      else if 32 ≤ flags then some .EINVAL
      else if !rangeAll e.hostMapped hostAddr len then some .EFAULT
      else none
  | .unmap addr len =>
      if len = 0 then some .EINVAL
      else if addr % pageSize ≠ 0 ∨ len % pageSize ≠ 0 then some .EINVAL
      else none
  | .unmapAll _ => none

/-- Modelled from the spec: submitting one bind/unbind.  Validation errors
are synchronous and enqueue no work (the returned engine is unchanged);
on success the operation is appended to the in-order queue, to take
effect when its fence signals. -/
def Engine.submitBind (e : Engine) (op : BindOp) : Engine × Option VmErr :=
  match e.validateOp op with
  | some err => (e, some err)
  | none =>
      if e.depth < e.queue.length + 1 then (e, some .ENOBUFS)
      else ({ e with queue := e.queue ++ [op] }, none)

/-- Modelled from the spec: `bind_array` — N operations submitted as one
atomic batch sharing a completion fence.  If any element fails validation
the whole call fails and enqueues nothing; if the batch does not fit in
the driver's internal queue depth the call fails with ENOBUFS and
enqueues nothing. -/
def Engine.submitBindArray (e : Engine) (ops : List BindOp) :
    Engine × Option VmErr :=
  match ops.findSome? e.validateOp with
  | some err => (e, some err)
  | none =>
      if e.depth < e.queue.length + ops.length then (e, some .ENOBUFS)
      else ({ e with queue := e.queue ++ ops }, none)

/-- Modelled from the spec: all outstanding fences signal — the queued
operations take effect on the VM in FIFO submission order. -/
def Engine.signalAll (e : Engine) : Engine :=
  { e with vm := e.queue.foldl VMState.applyOp e.vm, queue := [] }

/-- The first live Mapping covering a virtual address. -/
def lookupMapping (ms : List Mapping) (va : Nat) : Option Mapping :=
  ms.find? (fun m => decide (m.start ≤ va) && decide (va < m.stop))

/-- Modelled from the spec: address translation — the backing resource
(userptr?, handle-or-host-base) and offset a virtual address resolves to,
if any non-null Mapping covers it. -/
def translate (ms : List Mapping) (va : Nat) : Option (Bool × Nat × Nat) :=
  match lookupMapping ms va with
  | none => none
  | some m =>
      if m.isNull then none
      else some (m.userptr, m.backing, m.backingOffset + (va - m.start))

/-- Modelled from the spec: a GPU store of `v` through virtual address
`va`.  With no covering Mapping the access faults or lands on the scratch
page — backing memory is untouched.  A store through a userptr Mapping
whose host cell is not resident records an asynchronous fault on the
fence error channel and writes nothing. -/
def Engine.gpuStore (e : Engine) (va v : Nat) : Engine :=
  match lookupMapping e.vm.mappings va with
  | none => e
  | some m =>
      if m.isNull then e
      else if m.userptr then
        let h := m.backing + m.backingOffset + (va - m.start)
        if e.hostResident h then
          { e with vm := { e.vm with
              hostMem := fun x => if x = h then v else e.vm.hostMem x } }
        else { e with faulted := true }
      else
        { e with vm := { e.vm with
            boMem := fun b o =>
              if b = m.backing ∧ o = m.backingOffset + (va - m.start) then v
              else e.vm.boMem b o } }

/-- CPU read of a buffer-object backing cell through its coherent CPU
mapping. -/
def Engine.readBacking (e : Engine) (bo off : Nat) : Nat := e.vm.boMem bo off

/-- Modelled from the spec: sequential submission of a list of operations
as N individual bind/unbind calls; stops at the first synchronous
error. -/
def Engine.submitSeq (e : Engine) : List BindOp → Engine × Option VmErr
  | [] => (e, none)
  | op :: ops =>
      match e.submitBind op with
      | (e2, none) => e2.submitSeq ops
      | (e2, some err) => (e2, some err)

/-- Modelled from the spec (§5): the transitions through which a test
driver can evolve an engine — successful submissions (single or array),
fence completion, and GPU stores. -/
inductive Step : Engine → Engine → Prop
  | submit (e : Engine) (op : BindOp) (e2 : Engine)
      (h : e.submitBind op = (e2, none)) : Step e e2
  | submitArray (e : Engine) (ops : List BindOp) (e2 : Engine)
      (h : e.submitBindArray ops = (e2, none)) : Step e e2
  | signal (e : Engine) : Step e e.signalAll
  | store (e : Engine) (va v : Nat) : Step e (e.gpuStore va v)

/-- Reachability from an engine state via test-driver transitions. -/
def Reachable : Engine → Engine → Prop := Relation.ReflTransGen Step

/-- A freshly created VM: no Mappings, nothing in flight. -/
def initEngine (depth : Nat) (hostMapped hostResident : Nat → Bool)
    (boMem : Nat → Nat → Nat) (hostMem : Nat → Nat) : Engine :=
  { vm := { mappings := [], boMem := boMem, hostMem := hostMem },
    queue := [], depth := depth, hostMapped := hostMapped,
    hostResident := hostResident, faulted := false }

/-- Two Mappings occupy disjoint virtual ranges. -/
def MDisjoint (m1 m2 : Mapping) : Prop := m1.stop ≤ m2.start ∨ m2.stop ≤ m1.start

/-- Modelled from the spec (§8): the no-overlap invariant over a Mapping
set. -/
def NoOverlap (ms : List Mapping) : Prop := ms.Pairwise MDisjoint

/-- The length of the range a queued operation would map (0 for
unmap/unmap-all, which create no Mapping). -/
def opMapLen : BindOp → Nat
  | .map _ _ _ len _ => len
  | .mapUserptr _ _ len _ => len
  | .unmap _ _ => 0
  | .unmapAll _ => 0

/-- A concrete engine for witnesses: queue depth 8, fully mapped and
resident host memory, buffer-object cells all initialised to 7. -/
def demoEngine : Engine :=
  initEngine 8 (fun _ => true) (fun _ => true) (fun _ _ => 7) (fun _ => 0)

/-- The demo engine after submitting one page-sized unbind. -/
def demoE1 : Engine := { demoEngine with queue := [.unmap 4096 4096] }

/-- A three-page mapping at 0x1000 backed by buffer object 5. -/
def demoMapping : Mapping :=
  { start := 4096, len := 12288, userptr := false, backing := 5,
    backingOffset := 0, isNull := false }

/-- The demo engine with `demoMapping` bound and nothing in flight. -/
def demoBound : Engine :=
  { demoEngine with vm := { demoEngine.vm with mappings := [demoMapping] } }

/-- `demoBound` after submitting an unbind of its middle page. -/
def demoBoundE1 : Engine := { demoBound with queue := [.unmap 8192 4096] }

/-- An engine whose host memory is entirely unmapped (the situation of the
`userptr-invalid` subtest, which munmaps the range before binding). -/
def demoUnmappedHost : Engine :=
  initEngine 8 (fun _ => false) (fun _ => false) (fun _ _ => 7) (fun _ => 0)

/-- An engine whose host memory is mapped but not yet resident (faulted
in lazily). -/
def demoLazyHost : Engine :=
  initEngine 8 (fun _ => true) (fun _ => false) (fun _ _ => 7) (fun _ => 0)

/-- A page-sized userptr mapping at 0x1000 over host address 0x7000. -/
def demoUserptrMapping : Mapping :=
  { start := 4096, len := 4096, userptr := true, backing := 28672,
    backingOffset := 0, isNull := false }

/-- `demoLazyHost` with the userptr mapping bound. -/
def demoUserptrBound : Engine :=
  { demoLazyHost with vm :=
      { demoLazyHost.vm with mappings := [demoUserptrMapping] } }

/-- The op array of `test_bind_array`: `n` MAP binds of the same buffer
object at consecutive addresses `addr + i * size`, flags 0. -/
def arrayOps (bo size addr : Nat) : Nat → List BindOp := fun n =>
  (List.range n).map (fun i => .map bo 0 (addr + i * size) size 0)

/-- An engine with a short blocked queue (one pending unbind), as when a
spinner cork blocks the bind queue. -/
def demoBlocked : Engine := { demoEngine with queue := [.unmap 4096 4096] }

end XeVm

/-! ## Theorems -/

theorem IgtBlt.align_eq_roundUp (v a : Nat) (ha : 1 ≤ a)
    (h : v + a ≤ IgtBlt.U32) : IgtBlt.ALIGN v a = IgtBlt.roundUp v a := by
  unfold IgtBlt.ALIGN IgtBlt.roundUp
  have hlt : v + a - 1 < IgtBlt.U32 := by omega
  rw [Nat.mod_eq_of_lt hlt]

/-- C10: the independently maintained tiling helpers of the blitter
encoder (`blt_get_min_stride`/`blt_get_aligned_height` in intel_blt.c) and
of the buffer-tiling helper (`__get_min_stride`/`__get_aligned_height` in
intel_bufops.c) compute identical results for every width, height, bpp and
tiling under the `i915_tile_to_blt_tile` encoding (which maps
I915_TILING_NONE to T_LINEAR, I915_TILING_X to T_XMAJOR and
I915_TILING_64 to T_TILE64). -/
theorem C10_tiling_helpers_agree :
    ∀ (width bpp height : Nat) (t : IgtBlt.I915Tiling),
      IgtBlt.bufops_get_min_stride width bpp t =
        IgtBlt.blt_get_min_stride width bpp (IgtBlt.i915_tile_to_blt_tile t) ∧
      IgtBlt.bufops_get_aligned_height height bpp t =
        IgtBlt.blt_get_aligned_height height bpp
          (IgtBlt.i915_tile_to_blt_tile t) := by
  intro w b h t
  cases t <;> exact ⟨rfl, rfl⟩

/-- C8: `blt_get_min_stride` and `blt_get_aligned_height` are pure
functions computing exactly the claimed per-tiling rounding rules for
every width and height (within uint32 range, so that the C arithmetic does
not wrap) and every bpp in 8/16/32/64: linear gives `width * bpp / 8` and
leaves the height unchanged; X-major rounds the stride up to 512 bytes and
the height to 8 rows; Tile64 selects by bpp (256/512/1024-byte strides and
256/128/64-row heights for bpp 8, 16/32 and 64); every other tiling rounds
the stride to 128 bytes and the height to 32 rows. -/
theorem C8_tiling_helpers_exact (width bpp height : Nat)
    (t : IgtBlt.BltTilingType)
    (hbpp : bpp = 8 ∨ bpp = 16 ∨ bpp = 32 ∨ bpp = 64)
    (hw : width * bpp + 8192 ≤ IgtBlt.U32)
    (hh : height + 256 ≤ IgtBlt.U32) :
    IgtBlt.blt_get_min_stride width bpp t = IgtBlt.minStrideSpec width bpp t ∧
    IgtBlt.blt_get_aligned_height height bpp t =
      IgtBlt.alignedHeightSpec height bpp t := by
  have hxle : width * bpp / 8 ≤ width * bpp := Nat.div_le_self _ _
  have hmod : width * bpp % IgtBlt.U32 = width * bpp :=
    Nat.mod_eq_of_lt (by omega)
  have hal : ∀ a : Nat, 1 ≤ a → a ≤ 1024 →
      IgtBlt.ALIGN (width * bpp % IgtBlt.U32 / 8) a =
        IgtBlt.roundUp (width * bpp / 8) a := by
    intro a h1 h2
    rw [hmod]
    exact IgtBlt.align_eq_roundUp _ a h1 (by omega)
  have hah : ∀ a : Nat, 1 ≤ a → a ≤ 256 →
      IgtBlt.ALIGN height a = IgtBlt.roundUp height a := by
    intro a h1 h2
    exact IgtBlt.align_eq_roundUp _ a h1 (by omega)
  cases t with
  | T_LINEAR =>
      refine ⟨?_, rfl⟩
      show width * bpp % IgtBlt.U32 / 8 = width * bpp / 8
      rw [hmod]
  | T_XMAJOR =>
      exact ⟨hal 512 (by omega) (by omega), hah 8 (by omega) (by omega)⟩
  | T_YMAJOR =>
      exact ⟨hal 128 (by omega) (by omega), hah 32 (by omega) (by omega)⟩
  | T_TILE4 =>
      exact ⟨hal 128 (by omega) (by omega), hah 32 (by omega) (by omega)⟩
  | T_YFMAJOR =>
      exact ⟨hal 128 (by omega) (by omega), hah 32 (by omega) (by omega)⟩
  | T_YSMAJOR =>
      exact ⟨hal 128 (by omega) (by omega), hah 32 (by omega) (by omega)⟩
  | T_TILE64 =>
      rcases hbpp with hb | hb | hb | hb <;> subst hb
      · constructor
        · show IgtBlt.ALIGN width 256 = IgtBlt.roundUp (width * 8 / 8) 256
          rw [Nat.mul_div_cancel width (by norm_num : 0 < 8)]
          exact IgtBlt.align_eq_roundUp width 256 (by omega) (by omega)
        · exact hah 256 (by omega) (by omega)
      · exact ⟨hal 512 (by omega) (by omega), hah 128 (by omega) (by omega)⟩
      · exact ⟨hal 512 (by omega) (by omega), hah 128 (by omega) (by omega)⟩
      · exact ⟨hal 1024 (by omega) (by omega), hah 64 (by omega) (by omega)⟩

/-- Witness for C8 at width 100, bpp 32, height 10, X-major tiling. -/
theorem C8_tiling_helpers_exact_witness :
    IgtBlt.blt_get_min_stride 100 32 .T_XMAJOR =
      IgtBlt.minStrideSpec 100 32 .T_XMAJOR ∧
    IgtBlt.blt_get_aligned_height 10 32 .T_XMAJOR =
      IgtBlt.alignedHeightSpec 10 32 .T_XMAJOR :=
  C8_tiling_helpers_exact 100 32 10 .T_XMAJOR
    (Or.inr (Or.inr (Or.inl rfl)))
    (by norm_num [IgtBlt.U32]) (by norm_num [IgtBlt.U32])

theorem IgtBlt.blockCopyData_toList_length (d : IgtBlt.BlockCopyData) :
    d.toList.length = 12 := rfl

theorem IgtBlt.blockCopyDataExt_toList_length (d : IgtBlt.BlockCopyDataExt) :
    d.toList.length = 10 := rfl

theorem IgtBlt.writeDword_outside (mem : Nat → Nat) (pos d i : Nat)
    (h : i < pos ∨ pos + 4 ≤ i) : IgtBlt.writeDword mem pos d i = mem i := by
  unfold IgtBlt.writeDword
  have h1 : ¬ i = pos := by omega
  have h2 : ¬ i = pos + 1 := by omega
  have h3 : ¬ i = pos + 2 := by omega
  have h4 : ¬ i = pos + 3 := by omega
  simp [h1, h2, h3, h4]

theorem IgtBlt.writeDwords_outside (i : Nat) (ds : List Nat) :
    ∀ (mem : Nat → Nat) (pos : Nat), i < pos ∨ pos + 4 * ds.length ≤ i →
      IgtBlt.writeDwords mem pos ds i = mem i := by
  induction ds with
  | nil => intro mem pos h; rfl
  | cons d ds ih =>
      intro mem pos h
      have hlen : (d :: ds).length = ds.length + 1 := rfl
      rw [hlen] at h
      show IgtBlt.writeDwords (IgtBlt.writeDword mem pos d) (pos + 4) ds i = mem i
      rw [ih _ (pos + 4) (by omega)]
      exact IgtBlt.writeDword_outside mem pos d i (by omega)

/-- Counterexample for C9: with the batch capacity exactly one 48-byte
block-copy record and the write cursor at 0, the record's end coincides
with the capacity (`0 + 48 ≤ 48`), yet `emit_blt_block_copy` rejects it —
its capacity check `bb_pos + sizeof(data) < blt->bb.size` is strict, so
the claimed acceptance of a record ending exactly at capacity is false. -/
theorem C9_counterexample :
    0 + 48 ≤ IgtBlt.bltCap48.bb_size ∧
    IgtBlt.emit_blt_block_copy 0 IgtBlt.bltCap48 none 0 0 0 false
      (fun _ => 0) = .overflow (fun _ => 0) 0 := by
  constructor
  · norm_num [IgtBlt.bltCap48]
  · rfl

/-- C9 (amended): each encode step of `emit_blt_block_copy` checks the
strict condition `write_cursor + record_size < batch.capacity` before
writing — so a record whose end coincides exactly with the capacity is
rejected, not accepted — failing (modelled `overflow`) when the condition
does not hold; the check is applied separately to the 12-dword block-copy
record, the 10-dword extended record and the batch-buffer-end dword, and
on failure the batch holds exactly the fully written preceding records,
with no partial write at or beyond the failed cursor. -/
theorem C9_emit_strict_checks (ipVer : Nat) (blt : IgtBlt.BltCopyData)
    (ext : Option IgtBlt.BltBlockCopyDataExt) (sA dA pos : Nat) (bbe : Bool)
    (mem : Nat → Nat) :
    (¬ pos + 48 < blt.bb_size →
      IgtBlt.emit_blt_block_copy ipVer blt ext sA dA pos bbe mem =
        .overflow mem pos) ∧
    (∀ e, ext = some e → pos + 48 < blt.bb_size →
      ¬ pos + 48 + 40 < blt.bb_size →
      IgtBlt.emit_blt_block_copy ipVer blt ext sA dA pos bbe mem =
        .overflow (IgtBlt.writeDwords mem pos
          (IgtBlt.fill_data blt (sA + blt.src.plane_offset)
            (dA + blt.dst.plane_offset) true ipVer).toList) (pos + 48)) ∧
    (ext = none → bbe = true → pos + 48 < blt.bb_size →
      ¬ pos + 48 + 4 < blt.bb_size →
      IgtBlt.emit_blt_block_copy ipVer blt ext sA dA pos bbe mem =
        .overflow (IgtBlt.writeDwords mem pos
          (IgtBlt.fill_data blt (sA + blt.src.plane_offset)
            (dA + blt.dst.plane_offset) false ipVer).toList) (pos + 48)) ∧
    (ext = none → bbe = false → pos + 48 < blt.bb_size →
      IgtBlt.emit_blt_block_copy ipVer blt ext sA dA pos bbe mem =
        .ok (IgtBlt.writeDwords mem pos
          (IgtBlt.fill_data blt (sA + blt.src.plane_offset)
            (dA + blt.dst.plane_offset) false ipVer).toList) (pos + 48)) ∧
    (∀ m2 p2, IgtBlt.emit_blt_block_copy ipVer blt ext sA dA pos bbe mem =
        .overflow m2 p2 → ∀ i, i < pos ∨ p2 ≤ i → m2 i = mem i) := by
  refine ⟨?_, ?_, ?_, ?_, ?_⟩
  · intro h
    unfold IgtBlt.emit_blt_block_copy
    rw [if_neg h]
  · intro e he h1 h2
    subst he
    simp only [IgtBlt.emit_blt_block_copy, Option.isSome]
    rw [if_pos h1, if_neg h2]
  · intro he hb h1 h2
    subst he hb
    simp only [IgtBlt.emit_blt_block_copy, Option.isSome]
    rw [if_pos h1, if_pos trivial, if_neg h2]
  · intro he hb h1
    subst he hb
    simp only [IgtBlt.emit_blt_block_copy, Option.isSome]
    rw [if_pos h1]
    rw [if_neg (by decide : ¬(false = true))]
  · intro m2 p2 hE i hi
    simp only [IgtBlt.emit_blt_block_copy] at hE
    split at hE
    · split at hE
      · split at hE
        · split at hE
          · split at hE
            · exact IgtBlt.EmitResult.noConfusion hE
            · injection hE with hm hp
              subst hm hp
              rw [IgtBlt.writeDwords_outside i _ _ (pos + 48) (by
                rw [IgtBlt.blockCopyDataExt_toList_length]
                omega)]
              exact IgtBlt.writeDwords_outside i _ mem pos (by
                rw [IgtBlt.blockCopyData_toList_length]
                omega)
          · exact IgtBlt.EmitResult.noConfusion hE
        · injection hE with hm hp
          subst hm hp
          exact IgtBlt.writeDwords_outside i _ mem pos (by
            rw [IgtBlt.blockCopyData_toList_length]
            omega)
      · split at hE
        · split at hE
          · exact IgtBlt.EmitResult.noConfusion hE
          · injection hE with hm hp
            subst hm hp
            exact IgtBlt.writeDwords_outside i _ mem pos (by
              rw [IgtBlt.blockCopyData_toList_length]
              omega)
        · exact IgtBlt.EmitResult.noConfusion hE
    · injection hE with hm hp
      subst hm hp
      rfl

/-- Witness for C9 (amended), at capacity 88 with an extended record: the
12-dword record fits, the extended record's end coincides with the
capacity and is rejected with only the first record written. -/
theorem C9_emit_strict_checks_witness :
    IgtBlt.emit_blt_block_copy 0 IgtBlt.bltCap88 (some IgtBlt.zeroExt) 0 0 0
      false (fun _ => 0) =
      .overflow (IgtBlt.writeDwords (fun _ => 0) 0
        (IgtBlt.fill_data IgtBlt.bltCap88 0 0 true 0).toList) (0 + 48) :=
  (C9_emit_strict_checks 0 IgtBlt.bltCap88 (some IgtBlt.zeroExt) 0 0 0 false
      (fun _ => 0)).2.1 IgtBlt.zeroExt rfl (by norm_num [IgtBlt.bltCap88])
    (by norm_num [IgtBlt.bltCap88])

theorem XeVm.overlapsRange_true {a l : Nat} {m : XeVm.Mapping} :
    XeVm.overlapsRange a l m = true ↔ a < m.stop ∧ m.start < a + l := by
  simp [XeVm.overlapsRange]

theorem XeVm.clipMapping_of_disjoint {a l : Nat} {m : XeVm.Mapping}
    (h : m.stop ≤ a ∨ a + l ≤ m.start) : XeVm.clipMapping a l m = [m] := by
  unfold XeVm.clipMapping
  rw [if_neg]
  intro hov
  rcases XeVm.overlapsRange_true.mp hov with ⟨h1, h2⟩
  omega

theorem XeVm.mem_clipMapping {a l : Nat} {m m' : XeVm.Mapping}
    (h : m' ∈ XeVm.clipMapping a l m) :
    m.start ≤ m'.start ∧ m'.stop ≤ m.stop ∧ m'.userptr = m.userptr ∧
      m'.backing = m.backing ∧ m'.isNull = m.isNull := by
  unfold XeVm.clipMapping at h
  split at h
  · rename_i hov
    rcases XeVm.overlapsRange_true.mp hov with ⟨hc1, hc2⟩
    rcases List.mem_append.mp h with h1 | h1
    · split at h1
      · rcases List.mem_singleton.mp h1 with rfl
        refine ⟨Nat.le_refl _, ?_, rfl, rfl, rfl⟩
        simp only [XeVm.Mapping.stop] at *
        omega
      · cases h1
    · split at h1
      · rcases List.mem_singleton.mp h1 with rfl
        refine ⟨?_, ?_, rfl, rfl, rfl⟩
        · simp only [XeVm.Mapping.stop] at *
          omega
        · simp only [XeVm.Mapping.stop] at *
          omega
      · cases h1
  · rcases List.mem_singleton.mp h with rfl
    exact ⟨Nat.le_refl _, Nat.le_refl _, rfl, rfl, rfl⟩

theorem XeVm.mem_clipMapping_avoids {a l : Nat} {m m' : XeVm.Mapping}
    (h : m' ∈ XeVm.clipMapping a l m) : m'.stop ≤ a ∨ a + l ≤ m'.start := by
  unfold XeVm.clipMapping at h
  split at h
  · rcases List.mem_append.mp h with h1 | h1
    · split at h1
      · rcases List.mem_singleton.mp h1 with rfl
        left
        simp only [XeVm.Mapping.stop]
        rename_i hov hfront
        omega
      · cases h1
    · split at h1
      · rcases List.mem_singleton.mp h1 with rfl
        right
        simp only [XeVm.Mapping.stop]
        omega
      · cases h1
  · rcases List.mem_singleton.mp h with rfl
    rename_i hov
    have hn : ¬ (a < m'.stop ∧ m'.start < a + l) := fun hc =>
      hov (XeVm.overlapsRange_true.mpr hc)
    rcases Nat.lt_or_ge a m'.stop with hlt | hge
    · right
      have hns : ¬ m'.start < a + l := fun hc => hn ⟨hlt, hc⟩
      omega
    · left
      omega

theorem XeVm.mem_removeRange {a l : Nat} {ms : List XeVm.Mapping}
    {m' : XeVm.Mapping} (h : m' ∈ XeVm.removeRange a l ms) :
    ∃ m ∈ ms, m' ∈ XeVm.clipMapping a l m := by
  induction ms with
  | nil => cases h
  | cons m ms ih =>
      rcases List.mem_append.mp h with h1 | h1
      · exact ⟨m, List.mem_cons_self m ms, h1⟩
      · rcases ih h1 with ⟨m0, hm0, hc⟩
        exact ⟨m0, List.mem_cons_of_mem m hm0, hc⟩

theorem XeVm.removeRange_append (a l : Nat) (xs ys : List XeVm.Mapping) :
    XeVm.removeRange a l (xs ++ ys) =
      XeVm.removeRange a l xs ++ XeVm.removeRange a l ys := by
  induction xs with
  | nil => rfl
  | cons m xs ih =>
      show XeVm.clipMapping a l m ++ XeVm.removeRange a l (xs ++ ys) = _
      rw [ih]
      simp [XeVm.removeRange, List.append_assoc]

theorem XeVm.lookup_removeRange_none {a l va : Nat} (ms : List XeVm.Mapping)
    (h1 : a ≤ va) (h2 : va < a + l) :
    XeVm.lookupMapping (XeVm.removeRange a l ms) va = none := by
  apply List.find?_eq_none.mpr
  intro m' hm'
  rcases XeVm.mem_removeRange hm' with ⟨m, _, hc⟩
  rcases XeVm.mem_clipMapping_avoids hc with hd | hd <;>
    simp only [Bool.and_eq_true, decide_eq_true_eq, not_and, Nat.not_lt] <;>
    omega

theorem XeVm.applyOp_boMem (s : XeVm.VMState) (op : XeVm.BindOp) :
    (s.applyOp op).boMem = s.boMem := by
  cases op <;> rfl

theorem XeVm.applyOp_hostMem (s : XeVm.VMState) (op : XeVm.BindOp) :
    (s.applyOp op).hostMem = s.hostMem := by
  cases op <;> rfl

theorem XeVm.foldl_applyOp_boMem (q : List XeVm.BindOp) :
    ∀ s : XeVm.VMState, (q.foldl XeVm.VMState.applyOp s).boMem = s.boMem := by
  induction q with
  | nil => intro s; rfl
  | cons op q ih =>
      intro s
      show (q.foldl XeVm.VMState.applyOp (s.applyOp op)).boMem = s.boMem
      rw [ih (s.applyOp op), XeVm.applyOp_boMem]

theorem XeVm.foldl_applyOp_hostMem (q : List XeVm.BindOp) :
    ∀ s : XeVm.VMState, (q.foldl XeVm.VMState.applyOp s).hostMem = s.hostMem := by
  induction q with
  | nil => intro s; rfl
  | cons op q ih =>
      intro s
      show (q.foldl XeVm.VMState.applyOp (s.applyOp op)).hostMem = s.hostMem
      rw [ih (s.applyOp op), XeVm.applyOp_hostMem]

theorem XeVm.submitBind_ok {E E1 : XeVm.Engine} {op : XeVm.BindOp}
    (h : E.submitBind op = (E1, none)) :
    E1 = { E with queue := E.queue ++ [op] } ∧ E.validateOp op = none ∧
      E.queue.length + 1 ≤ E.depth := by
  unfold XeVm.Engine.submitBind at h
  split at h
  · simp at h
  · split at h
    · simp at h
    · rename_i hval hdepth
      obtain ⟨h1, _⟩ := Prod.mk.injEq _ _ _ _ |>.mp h
      exact ⟨h1.symm, hval, by omega⟩

theorem XeVm.removeRange_cons (a l : Nat) (m : XeVm.Mapping)
    (ms : List XeVm.Mapping) :
    XeVm.removeRange a l (m :: ms) =
      XeVm.clipMapping a l m ++ XeVm.removeRange a l ms := rfl

theorem XeVm.removeRange_of_disjoint {a l : Nat} {xs : List XeVm.Mapping}
    (h : ∀ m' ∈ xs, m'.stop ≤ a ∨ a + l ≤ m'.start) :
    XeVm.removeRange a l xs = xs := by
  induction xs with
  | nil => rfl
  | cons m xs ih =>
      rw [XeVm.removeRange_cons,
        XeVm.clipMapping_of_disjoint (h m (List.mem_cons_self m xs)),
        ih (fun m' hm' => h m' (List.mem_cons_of_mem m hm'))]
      rfl

theorem XeVm.gpuStore_of_unmapped {E : XeVm.Engine} {va : Nat} (v : Nat)
    (h : XeVm.lookupMapping E.vm.mappings va = none) : E.gpuStore va v = E := by
  unfold XeVm.Engine.gpuStore
  rw [h]

theorem XeVm.signalAll_submit_unmap (E : XeVm.Engine) (a l : Nat) :
    (XeVm.Engine.signalAll
      { E with queue := E.queue ++ [.unmap a l] }).vm.mappings =
      XeVm.removeRange a l
        ((E.queue.foldl XeVm.VMState.applyOp E.vm).mappings) := by
  unfold XeVm.Engine.signalAll
  rw [List.foldl_append]
  rfl

theorem XeVm.signalAll_unmap_of_empty (E : XeVm.Engine) (hq : E.queue = [])
    (a l : Nat) :
    (XeVm.Engine.signalAll
      { E with queue := E.queue ++ [.unmap a l] }).vm.mappings =
      XeVm.removeRange a l E.vm.mappings := by
  rw [XeVm.signalAll_submit_unmap, hq, List.foldl_nil]

/-- C2: once an unbind of `[a, a + l)` has completed (its fence signaled),
a GPU store through any address in that range never reaches the backing
memory: the store leaves the entire engine unchanged (it faults or lands
on the scratch page), so a CPU read of any backing cell afterwards still
returns the value it held before the store. -/
theorem C2_unbind_blocks_gpu_access (E E1 : XeVm.Engine) (a l v va bo off : Nat)
    (hsub : E.submitBind (.unmap a l) = (E1, none))
    (h1 : a ≤ va) (h2 : va < a + l) :
    E1.signalAll.gpuStore va v = E1.signalAll ∧
    (E1.signalAll.gpuStore va v).readBacking bo off = E.readBacking bo off := by
  obtain ⟨hE1, hval, hdepth⟩ := XeVm.submitBind_ok hsub
  subst hE1
  have hnone : XeVm.lookupMapping
      (XeVm.Engine.signalAll
        { E with queue := E.queue ++ [.unmap a l] }).vm.mappings va = none := by
    rw [XeVm.signalAll_submit_unmap]
    exact XeVm.lookup_removeRange_none _ h1 h2
  have hid := XeVm.gpuStore_of_unmapped v hnone
  refine ⟨hid, ?_⟩
  rw [hid]
  show ((E.queue ++ [XeVm.BindOp.unmap a l]).foldl
      XeVm.VMState.applyOp E.vm).boMem bo off = E.vm.boMem bo off
  rw [XeVm.foldl_applyOp_boMem]

/-- Witness for C2: unbinding the page at 0x1000 on the demo engine, a GPU
store through 0x1000 changes nothing and the CPU still reads 7 from the
backing. -/
theorem C2_unbind_blocks_gpu_access_witness :
    XeVm.demoE1.signalAll.gpuStore 4096 99 = XeVm.demoE1.signalAll ∧
    (XeVm.demoE1.signalAll.gpuStore 4096 99).readBacking 5 0 =
      XeVm.demoEngine.readBacking 5 0 :=
  C2_unbind_blocks_gpu_access XeVm.demoEngine XeVm.demoE1 4096 4096 99 4096 5 0
    rfl (Nat.le_refl 4096) (by omega)

/-- C1: unbinding a sub-range `[b, b+l)` strictly inside a completed
Mapping `[a, d)` (here `a = m.start`, `d = m.stop`, `e = b + l`), once its
fence has signaled, leaves exactly two Mappings `[a, b)` and `[e, d)` over
the same backing: the front remainder keeps the original backing offset
and the back remainder's offset grows by `e - a`; every address of
`[a, b)` and `[e, d)` still translates to exactly the backing cell it
translated to before the unbind (so data written there beforehand is still
correctly addressable), and Mappings outside `[b, e)` are untouched. -/
theorem C1_partial_unbind_split (E E1 : XeVm.Engine)
    (ms1 ms2 : List XeVm.Mapping) (m : XeVm.Mapping) (b l : Nat)
    (hq : E.queue = [])
    (hms : E.vm.mappings = ms1 ++ m :: ms2)
    (hfront : m.start < b) (hlen : 0 < l) (hback : b + l < m.stop)
    (hdisj : ∀ m' ∈ ms1 ++ ms2, m'.stop ≤ b ∨ b + l ≤ m'.start)
    (hsub : E.submitBind (.unmap b l) = (E1, none)) :
    E1.signalAll.vm.mappings =
      ms1 ++ { m with len := b - m.start } ::
        { m with start := b + l, len := m.stop - (b + l),
                 backingOffset := m.backingOffset + (b + l - m.start) } ::
        ms2 ∧
    (∀ va, (m.start ≤ va ∧ va < b) ∨ (b + l ≤ va ∧ va < m.stop) →
      XeVm.translate E1.signalAll.vm.mappings va =
        XeVm.translate E.vm.mappings va) := by
  obtain ⟨hE1, hval, hdepth⟩ := XeVm.submitBind_ok hsub
  subst hE1
  have hstop : m.stop = m.start + m.len := rfl
  have hclip : XeVm.clipMapping b l m =
      [{ m with len := b - m.start },
       { m with start := b + l, len := m.stop - (b + l),
                backingOffset := m.backingOffset + (b + l - m.start) }] := by
    unfold XeVm.clipMapping
    rw [if_pos (XeVm.overlapsRange_true.mpr ⟨by omega, by omega⟩),
      if_pos hfront, if_pos hback]
    rfl
  have hd1 : ∀ m' ∈ ms1, m'.stop ≤ b ∨ b + l ≤ m'.start := fun m' hm' =>
    hdisj m' (List.mem_append.mpr (Or.inl hm'))
  have hd2 : ∀ m' ∈ ms2, m'.stop ≤ b ∨ b + l ≤ m'.start := fun m' hm' =>
    hdisj m' (List.mem_append.mpr (Or.inr hm'))
  have hfinal : (XeVm.Engine.signalAll
      { E with queue := E.queue ++ [.unmap b l] }).vm.mappings =
      ms1 ++ { m with len := b - m.start } ::
        { m with start := b + l, len := m.stop - (b + l),
                 backingOffset := m.backingOffset + (b + l - m.start) } ::
        ms2 := by
    rw [XeVm.signalAll_unmap_of_empty E hq b l, hms,
      XeVm.removeRange_append, XeVm.removeRange_cons,
      XeVm.removeRange_of_disjoint hd1, XeVm.removeRange_of_disjoint hd2,
      hclip]
    rfl
  refine ⟨hfinal, ?_⟩
  intro va hva
  rw [hfinal, hms]
  unfold XeVm.translate XeVm.lookupMapping
  rw [List.find?_append, List.find?_append]
  cases hf1 : List.find?
      (fun m'' => decide (m''.start ≤ va) && decide (va < m''.stop)) ms1 with
  | some mm => rfl
  | none =>
      simp only [Option.none_or]
      rcases hva with ⟨hva1, hva2⟩ | ⟨hva1, hva2⟩
      · rw [List.find?_cons_of_pos _ (by
          simp only [Bool.and_eq_true, decide_eq_true_eq, XeVm.Mapping.stop]
          constructor <;> omega)]
        rw [List.find?_cons_of_pos _ (by
          simp only [Bool.and_eq_true, decide_eq_true_eq, XeVm.Mapping.stop]
          constructor <;> omega)]
      · rw [List.find?_cons_of_neg _ (by
          simp only [Bool.and_eq_true, decide_eq_true_eq, XeVm.Mapping.stop,
            not_and, Nat.not_lt]
          intro
          omega)]
        rw [List.find?_cons_of_pos _ (by
          simp only [Bool.and_eq_true, decide_eq_true_eq, XeVm.Mapping.stop]
          constructor <;> omega)]
        rw [List.find?_cons_of_pos _ (by
          simp only [Bool.and_eq_true, decide_eq_true_eq, XeVm.Mapping.stop]
          constructor <;> omega)]
        show (if m.isNull = true then none
            else some (m.userptr, m.backing,
              m.backingOffset + (b + l - m.start) + (va - (b + l)))) =
          (if m.isNull = true then none
            else some (m.userptr, m.backing, m.backingOffset + (va - m.start)))
        cases hnull : m.isNull with
        | true => rfl
        | false =>
            simp only [Bool.false_eq_true, if_false, Option.some.injEq,
              Prod.mk.injEq]
            exact ⟨trivial, trivial, by omega⟩

/-- Witness for C1: unbinding the middle page of the three-page demo
mapping leaves exactly the front page (original offset) and the back page
(offset 0x2000), and both still translate as before. -/
theorem C1_partial_unbind_split_witness :
    XeVm.demoBoundE1.signalAll.vm.mappings =
      [{ start := 4096, len := 4096, userptr := false, backing := 5,
         backingOffset := 0, isNull := false },
       { start := 12288, len := 4096, userptr := false, backing := 5,
         backingOffset := 8192, isNull := false }] ∧
    (∀ va, (4096 ≤ va ∧ va < 8192) ∨ (12288 ≤ va ∧ va < 16384) →
      XeVm.translate XeVm.demoBoundE1.signalAll.vm.mappings va =
        XeVm.translate XeVm.demoBound.vm.mappings va) :=
  C1_partial_unbind_split XeVm.demoBound XeVm.demoBoundE1 [] []
    XeVm.demoMapping 8192 4096 rfl rfl (by decide) (by decide) (by decide)
    (fun m' hm' => absurd hm' (List.not_mem_nil m')) rfl

theorem XeVm.validateOp_map_bad_flags (E : XeVm.Engine)
    (bo boOff addr len flags : Nat) (h : 32 ≤ flags) :
    E.validateOp (.map bo boOff addr len flags) = some .EINVAL := by
  show (if len = 0 then some XeVm.VmErr.EINVAL
      else if addr % XeVm.pageSize ≠ 0 ∨ len % XeVm.pageSize ≠ 0 then
        some XeVm.VmErr.EINVAL
      else if 32 ≤ flags then some XeVm.VmErr.EINVAL else none) =
    some XeVm.VmErr.EINVAL
  split
  · rfl
  · split
    · rfl
    · simp [h]

theorem XeVm.validateOp_userptr_bad_flags (E : XeVm.Engine)
    (hostAddr addr len flags : Nat) (h : 32 ≤ flags) :
    E.validateOp (.mapUserptr hostAddr addr len flags) = some .EINVAL := by
  show (if len = 0 then some XeVm.VmErr.EINVAL
      else if addr % XeVm.pageSize ≠ 0 ∨ len % XeVm.pageSize ≠ 0 then
        some XeVm.VmErr.EINVAL
      else if 32 ≤ flags then some XeVm.VmErr.EINVAL
      else if (!XeVm.rangeAll E.hostMapped hostAddr len) = true then
        some XeVm.VmErr.EFAULT
      else none) = some XeVm.VmErr.EINVAL
  split
  · rfl
  · split
    · rfl
    · simp [h]

theorem XeVm.validateOp_map_ok (E : XeVm.Engine)
    (bo boOff addr len flags : Nat) (hfl : flags < 32) (hlen : len ≠ 0)
    (haddr : addr % XeVm.pageSize = 0) (hlal : len % XeVm.pageSize = 0) :
    E.validateOp (.map bo boOff addr len flags) = none := by
  show (if len = 0 then some XeVm.VmErr.EINVAL
      else if addr % XeVm.pageSize ≠ 0 ∨ len % XeVm.pageSize ≠ 0 then
        some XeVm.VmErr.EINVAL
      else if 32 ≤ flags then some XeVm.VmErr.EINVAL else none) = none
  rw [if_neg hlen, if_neg (by rw [haddr, hlal]; simp),
    if_neg (by omega : ¬ 32 ≤ flags)]

theorem XeVm.validateOp_userptr_ok (E : XeVm.Engine)
    (hostAddr addr len flags : Nat) (hfl : flags < 32) (hlen : len ≠ 0)
    (haddr : addr % XeVm.pageSize = 0) (hlal : len % XeVm.pageSize = 0)
    (hmapped : XeVm.rangeAll E.hostMapped hostAddr len = true) :
    E.validateOp (.mapUserptr hostAddr addr len flags) = none := by
  show (if len = 0 then some XeVm.VmErr.EINVAL
      else if addr % XeVm.pageSize ≠ 0 ∨ len % XeVm.pageSize ≠ 0 then
        some XeVm.VmErr.EINVAL
      else if 32 ≤ flags then some XeVm.VmErr.EINVAL
      else if (!XeVm.rangeAll E.hostMapped hostAddr len) = true then
        some XeVm.VmErr.EFAULT
      else none) = none
  rw [if_neg hlen, if_neg (by rw [haddr, hlal]; simp),
    if_neg (by omega : ¬ 32 ≤ flags), if_neg (by rw [hmapped]; simp)]

theorem XeVm.validateOp_userptr_efault (E : XeVm.Engine)
    (hostAddr addr len flags : Nat) (hfl : flags < 32) (hlen : len ≠ 0)
    (haddr : addr % XeVm.pageSize = 0) (hlal : len % XeVm.pageSize = 0)
    (hunmapped : XeVm.rangeAll E.hostMapped hostAddr len = false) :
    E.validateOp (.mapUserptr hostAddr addr len flags) =
      some .EFAULT := by
  show (if len = 0 then some XeVm.VmErr.EINVAL
      else if addr % XeVm.pageSize ≠ 0 ∨ len % XeVm.pageSize ≠ 0 then
        some XeVm.VmErr.EINVAL
      else if 32 ≤ flags then some XeVm.VmErr.EINVAL
      else if (!XeVm.rangeAll E.hostMapped hostAddr len) = true then
        some XeVm.VmErr.EFAULT
      else none) = some XeVm.VmErr.EFAULT
  rw [if_neg hlen, if_neg (by rw [haddr, hlal]; simp),
    if_neg (by omega : ¬ 32 ≤ flags), if_pos (by rw [hunmapped]; rfl)]

theorem XeVm.submitBind_of_validate_ok {E : XeVm.Engine} {op : XeVm.BindOp}
    (h : E.validateOp op = none) (hd : E.queue.length + 1 ≤ E.depth) :
    E.submitBind op = ({ E with queue := E.queue ++ [op] }, none) := by
  unfold XeVm.Engine.submitBind
  rw [h]
  show (if E.depth < E.queue.length + 1 then (E, some XeVm.VmErr.ENOBUFS)
      else ({ E with queue := E.queue ++ [op] }, none)) =
    ({ E with queue := E.queue ++ [op] }, none)
  rw [if_neg (by omega : ¬ E.depth < E.queue.length + 1)]

theorem XeVm.submitBind_of_validate_err {E : XeVm.Engine} {op : XeVm.BindOp}
    {err : XeVm.VmErr} (h : E.validateOp op = some err) :
    E.submitBind op = (E, some err) := by
  unfold XeVm.Engine.submitBind
  rw [h]

theorem XeVm.findSome?_validate_einval {E : XeVm.Engine} :
    ∀ (ops : List XeVm.BindOp) (op : XeVm.BindOp), op ∈ ops →
      E.validateOp op = some .EINVAL →
      (∀ op' ∈ ops, E.validateOp op' = none ∨
        E.validateOp op' = some .EINVAL) →
      ops.findSome? E.validateOp = some .EINVAL := by
  intro ops
  induction ops with
  | nil => intro op h; cases h
  | cons o os ih =>
      intro op hmem hval hall
      cases hvo : E.validateOp o with
      | some err =>
          rw [List.findSome?_cons_of_isSome _ (by rw [hvo]; rfl)]
          rcases hall o (List.mem_cons_self o os) with h0 | h0
          · rw [hvo] at h0
            cases h0
          · exact h0
      | none =>
          rw [List.findSome?_cons_of_isNone _ (by rw [hvo]; rfl)]
          rcases List.mem_cons.mp hmem with rfl | hmem2
          · rw [hvo] at hval
            cases hval
          · exact ih op hmem2 hval
              (fun op' hop' => hall op' (List.mem_cons_of_mem o hop'))

/-- C6: a bind whose flags word carries an undefined bit (any bit above
the five defined ones, i.e. `flags >= 32`) fails synchronously at
submission with EINVAL and enqueues no work — both for a single MAP or
MAP_USERPTR bind and when any element of an array of otherwise
EINVAL-or-valid binds carries the invalid flag — while a subsequent bind
with any valid flags word (0, READONLY, IMMEDIATE, NULL, DUMPABLE, all
below 32) still validates and enqueues normally. -/
theorem C6_invalid_flag_rejected (E : XeVm.Engine)
    (bo boOff addr len flags : Nat) (ops : List XeVm.BindOp) :
    (32 ≤ flags →
      E.submitBind (.map bo boOff addr len flags) = (E, some .EINVAL) ∧
      E.submitBind (.mapUserptr bo addr len flags) = (E, some .EINVAL)) ∧
    (32 ≤ flags → (XeVm.BindOp.map bo boOff addr len flags) ∈ ops →
      (∀ op' ∈ ops, E.validateOp op' = none ∨
        E.validateOp op' = some .EINVAL) →
      E.submitBindArray ops = (E, some .EINVAL)) ∧
    (flags < 32 → len ≠ 0 → addr % XeVm.pageSize = 0 →
      len % XeVm.pageSize = 0 → E.queue.length + 1 ≤ E.depth →
      E.submitBind (.map bo boOff addr len flags) =
        ({ E with queue := E.queue ++ [.map bo boOff addr len flags] },
         none)) := by
  refine ⟨?_, ?_, ?_⟩
  · intro h
    exact ⟨XeVm.submitBind_of_validate_err
        (XeVm.validateOp_map_bad_flags E bo boOff addr len flags h),
      XeVm.submitBind_of_validate_err
        (XeVm.validateOp_userptr_bad_flags E bo addr len flags h)⟩
  · intro h hmem hall
    unfold XeVm.Engine.submitBindArray
    rw [XeVm.findSome?_validate_einval ops _ hmem
      (XeVm.validateOp_map_bad_flags E bo boOff addr len flags h) hall]
  · intro hfl hlen haddr hlal hdepth
    exact XeVm.submitBind_of_validate_ok
      (XeVm.validateOp_map_ok E bo boOff addr len flags hfl hlen haddr hlal)
      hdepth

/-- Witness for C6: on the demo engine, flag bit 5 is rejected with EINVAL
(single and array forms, state unchanged) and flags 0 still binds. -/
theorem C6_invalid_flag_rejected_witness :
    XeVm.demoEngine.submitBind (.map 1 0 4096 4096 32) =
      (XeVm.demoEngine, some .EINVAL) ∧
    XeVm.demoEngine.submitBindArray [.map 1 0 4096 4096 32] =
      (XeVm.demoEngine, some .EINVAL) ∧
    XeVm.demoEngine.submitBind (.map 1 0 4096 4096 0) =
      ({ XeVm.demoEngine with queue := [.map 1 0 4096 4096 0] }, none) :=
  ⟨((C6_invalid_flag_rejected XeVm.demoEngine 1 0 4096 4096 32 []).1
      (by omega)).1,
   (C6_invalid_flag_rejected XeVm.demoEngine 1 0 4096 4096 32
      [.map 1 0 4096 4096 32]).2.1 (by omega)
      (List.mem_cons_self _ _)
      (by
        intro op' hop'
        rcases List.mem_cons.mp hop' with rfl | h0
        · right
          decide
        · cases h0),
   (C6_invalid_flag_rejected XeVm.demoEngine 1 0 4096 4096 0 []).2.2
      (by omega) (by omega) (by decide) (by decide) (by decide)⟩

theorem XeVm.rangeAll_const_false (base len : Nat) (h : 0 < len) :
    XeVm.rangeAll (fun _ => false) base len = false := by
  rw [Bool.eq_false_iff]
  intro hall
  have h0 := List.all_eq_true.mp hall 0 (List.mem_range.mpr h)
  simp at h0

theorem XeVm.rangeAll_const_true (base len : Nat) :
    XeVm.rangeAll (fun _ => true) base len = true := by
  apply List.all_eq_true.mpr
  intro x hx
  rfl

/-- Counterexample for C7: exactly the scenario of the `userptr-invalid`
subtest (bind a munmapped host address, flags 0, aligned page-sized
range) — the submission fails synchronously with EFAULT, so the claim
that a bind of an unmapped host address does not fail synchronously is
false. -/
theorem C7_counterexample :
    (XeVm.demoUnmappedHost.submitBind
      (.mapUserptr 0x7fadeadbe000 0x40000 4096 0)).2 = some .EFAULT ∧
    (XeVm.demoUnmappedHost.submitBind
      (.mapUserptr 0x7fadeadbe000 0x40000 4096 0)).2 ≠ none := by
  have hsub := XeVm.submitBind_of_validate_err
    (XeVm.validateOp_userptr_efault XeVm.demoUnmappedHost 0x7fadeadbe000
      0x40000 4096 0 (by omega) (by omega) (by decide) (by decide)
      (XeVm.rangeAll_const_false 0x7fadeadbe000 4096 (by omega)))
  rw [hsub]
  exact ⟨rfl, fun h => by cases h⟩

/-- C7 (amended): the host range of a `bind_userptr` need not be resident
at submission time — a bind of a mapped but not-yet-resident host range
validates and enqueues normally, with no synchronous failure — but a host
range with no CPU mapping at all fails synchronously with EFAULT and
enqueues nothing (as the `userptr-invalid` subtest asserts); a GPU access
through a userptr Mapping whose host cell has not become resident fails
asynchronously: it records a fault on the fence error channel and writes
no memory. -/
theorem C7_userptr_lazy_residency (E : XeVm.Engine)
    (hostAddr addr len flags va v : Nat) (m : XeVm.Mapping) :
    (XeVm.rangeAll E.hostMapped hostAddr len = true → flags < 32 →
      len ≠ 0 → addr % XeVm.pageSize = 0 → len % XeVm.pageSize = 0 →
      E.queue.length + 1 ≤ E.depth →
      E.submitBind (.mapUserptr hostAddr addr len flags) =
        ({ E with queue :=
            E.queue ++ [.mapUserptr hostAddr addr len flags] }, none)) ∧
    (XeVm.rangeAll E.hostMapped hostAddr len = false → flags < 32 →
      len ≠ 0 → addr % XeVm.pageSize = 0 → len % XeVm.pageSize = 0 →
      E.submitBind (.mapUserptr hostAddr addr len flags) =
        (E, some .EFAULT)) ∧
    (XeVm.lookupMapping E.vm.mappings va = some m → m.userptr = true →
      m.isNull = false →
      E.hostResident (m.backing + m.backingOffset + (va - m.start)) = false →
      (E.gpuStore va v).faulted = true ∧
      (E.gpuStore va v).vm.hostMem = E.vm.hostMem ∧
      (E.gpuStore va v).vm.boMem = E.vm.boMem) := by
  refine ⟨?_, ?_, ?_⟩
  · intro hmapped hfl hlen haddr hlal hdepth
    exact XeVm.submitBind_of_validate_ok
      (XeVm.validateOp_userptr_ok E hostAddr addr len flags hfl hlen haddr
        hlal hmapped) hdepth
  · intro hunmapped hfl hlen haddr hlal
    exact XeVm.submitBind_of_validate_err
      (XeVm.validateOp_userptr_efault E hostAddr addr len flags hfl hlen
        haddr hlal hunmapped)
  · intro hlook hup hnull hres
    have hstore : E.gpuStore va v = { E with faulted := true } := by
      simp [XeVm.Engine.gpuStore, hlook, hnull, hup, hres]
    rw [hstore]
    exact ⟨rfl, rfl, rfl⟩

/-- Witness for C7 (amended): binding a mapped-but-nonresident host range
succeeds synchronously, and a GPU store through the userptr mapping while
the host page is not resident records a fault. -/
theorem C7_userptr_lazy_residency_witness :
    XeVm.demoLazyHost.submitBind (.mapUserptr 28672 4096 4096 0) =
      ({ XeVm.demoLazyHost with queue := [.mapUserptr 28672 4096 4096 0] },
       none) ∧
    (XeVm.demoUserptrBound.gpuStore 4096 55).faulted = true :=
  ⟨(C7_userptr_lazy_residency XeVm.demoLazyHost 28672 4096 4096 0 0 0
      XeVm.demoUserptrMapping).1 (XeVm.rangeAll_const_true 28672 4096)
      (by omega) (by omega) (by decide) (by decide) (by decide),
   ((C7_userptr_lazy_residency XeVm.demoUserptrBound 0 0 4096 0 4096 55
      XeVm.demoUserptrMapping).2.2 rfl rfl rfl rfl).1⟩

theorem XeVm.submitBindArray_ok {E E1 : XeVm.Engine} {ops : List XeVm.BindOp}
    (h : E.submitBindArray ops = (E1, none)) :
    E1 = { E with queue := E.queue ++ ops } ∧
      ops.findSome? E.validateOp = none ∧
      E.queue.length + ops.length ≤ E.depth := by
  unfold XeVm.Engine.submitBindArray at h
  split at h
  · simp at h
  · split at h
    · simp at h
    · rename_i hval hdepth
      obtain ⟨h1, _⟩ := Prod.mk.injEq _ _ _ _ |>.mp h
      exact ⟨h1.symm, hval, by omega⟩

theorem XeVm.submitBindArray_ok_intro {E : XeVm.Engine}
    {ops : List XeVm.BindOp} (hfind : ops.findSome? E.validateOp = none)
    (hd : E.queue.length + ops.length ≤ E.depth) :
    E.submitBindArray ops = ({ E with queue := E.queue ++ ops }, none) := by
  unfold XeVm.Engine.submitBindArray
  rw [hfind]
  show (if E.depth < E.queue.length + ops.length then
      (E, some XeVm.VmErr.ENOBUFS)
    else ({ E with queue := E.queue ++ ops }, none)) =
    ({ E with queue := E.queue ++ ops }, none)
  rw [if_neg (by omega : ¬ E.depth < E.queue.length + ops.length)]

/-- C4: submitting N bind/unbind operations as one `bind_array` call on a
queue produces exactly the same engine as submitting them sequentially as
N individual calls on the same queue — hence, after the shared fence
signals, the same final Mapping set, and the same results for every
subsequent GPU write and CPU read.  This holds for arbitrary op lists,
including conflicting or overlapping addresses. -/
theorem C4_bind_array_equiv_sequential (E E1 : XeVm.Engine)
    (ops : List XeVm.BindOp)
    (h : E.submitBindArray ops = (E1, none)) :
    E.submitSeq ops = (E1, none) ∧
    (E.submitSeq ops).1.signalAll.vm.mappings =
      E1.signalAll.vm.mappings := by
  have hmain : ∀ (ops : List XeVm.BindOp) (E E1 : XeVm.Engine),
      E.submitBindArray ops = (E1, none) → E.submitSeq ops = (E1, none) := by
    intro ops
    induction ops with
    | nil =>
        intro E E1 h
        obtain ⟨hE1, _, _⟩ := XeVm.submitBindArray_ok h
        rw [List.append_nil] at hE1
        rw [hE1]
        rfl
    | cons op ops ih =>
        intro E E1 h
        obtain ⟨hE1, hfind, hdepth⟩ := XeVm.submitBindArray_ok h
        have hlen : (op :: ops).length = ops.length + 1 := rfl
        rw [hlen] at hdepth
        cases hvo : E.validateOp op with
        | some err =>
            rw [List.findSome?_cons_of_isSome _ (by rw [hvo]; rfl)] at hfind
            rw [hvo] at hfind
            cases hfind
        | none =>
            rw [List.findSome?_cons_of_isNone _ (by rw [hvo]; rfl)] at hfind
            have hsub := XeVm.submitBind_of_validate_ok hvo (by omega)
            have harr2 : ({ E with queue := E.queue ++ [op] } :
                XeVm.Engine).submitBindArray ops = (E1, none) := by
              have hfind2 : ops.findSome?
                  ({ E with queue := E.queue ++ [op] } :
                    XeVm.Engine).validateOp = none := hfind
              have := XeVm.submitBindArray_ok_intro hfind2 (by
                  show (E.queue ++ [op]).length + ops.length ≤ E.depth
                  rw [List.length_append]
                  simp only [List.length]
                  omega)
              rw [this, hE1]
              show (_, (none : Option XeVm.VmErr)) = _
              rw [List.append_assoc]
              rfl
            have hseq := ih _ _ harr2
            show (match E.submitBind op with
              | (e2, none) => e2.submitSeq ops
              | (e2, some err) => (e2, some err)) = (E1, none)
            rw [hsub]
            exact hseq
  refine ⟨hmain ops E E1 h, ?_⟩
  rw [hmain ops E E1 h]

/-- Witness for C4: a two-op array (bind then overlapping unbind) submits
to the same engine sequentially as via the array call. -/
theorem C4_bind_array_equiv_sequential_witness :
    XeVm.demoEngine.submitSeq [.map 1 0 4096 4096 0, .unmap 4096 4096] =
      ({ XeVm.demoEngine with
          queue := [.map 1 0 4096 4096 0, .unmap 4096 4096] }, none) ∧
    (XeVm.demoEngine.submitSeq
        [.map 1 0 4096 4096 0, .unmap 4096 4096]).1.signalAll.vm.mappings =
      ({ XeVm.demoEngine with
          queue := [.map 1 0 4096 4096 0, .unmap 4096 4096] } :
        XeVm.Engine).signalAll.vm.mappings :=
  C4_bind_array_equiv_sequential XeVm.demoEngine
    { XeVm.demoEngine with
        queue := [.map 1 0 4096 4096 0, .unmap 4096 4096] }
    [.map 1 0 4096 4096 0, .unmap 4096 4096] rfl

theorem XeVm.lookupMapping_append (xs ys : List XeVm.Mapping) (va : Nat) :
    XeVm.lookupMapping (xs ++ ys) va =
      (XeVm.lookupMapping xs va).or (XeVm.lookupMapping ys va) :=
  List.find?_append

theorem XeVm.translate_append_none {xs ys : List XeVm.Mapping} {va : Nat}
    (h : XeVm.lookupMapping xs va = none) :
    XeVm.translate (xs ++ ys) va = XeVm.translate ys va := by
  unfold XeVm.translate
  rw [XeVm.lookupMapping_append, h, Option.none_or]

theorem XeVm.translate_append_of_some {xs ys : List XeVm.Mapping} {va : Nat}
    {mp : XeVm.Mapping} (h : XeVm.lookupMapping xs va = some mp) :
    XeVm.translate (xs ++ ys) va = XeVm.translate xs va := by
  unfold XeVm.translate
  rw [XeVm.lookupMapping_append, h]
  rfl

theorem XeVm.translate_cons_not_cover {m : XeVm.Mapping}
    {ms : List XeVm.Mapping} {va : Nat}
    (h : ¬(m.start ≤ va ∧ va < m.stop)) :
    XeVm.translate (m :: ms) va = XeVm.translate ms va := by
  unfold XeVm.translate XeVm.lookupMapping
  rw [List.find?_cons_of_neg _ (by
    simp only [Bool.and_eq_true, decide_eq_true_eq]
    exact h)]

theorem XeVm.lookup_clip_none_of_not_cover {a l va : Nat} {m : XeVm.Mapping}
    (h : ¬(m.start ≤ va ∧ va < m.stop)) :
    XeVm.lookupMapping (XeVm.clipMapping a l m) va = none := by
  apply List.find?_eq_none.mpr
  intro x hx
  obtain ⟨c1, c2, _, _, _⟩ := XeVm.mem_clipMapping hx
  simp only [Bool.and_eq_true, decide_eq_true_eq, not_and, Nat.not_lt]
  intro h1
  by_contra h2
  push_neg at h2
  exact h ⟨by omega, by omega⟩

theorem XeVm.lookup_clip_cover {a l va : Nat} {m : XeVm.Mapping}
    (hva : va < a ∨ a + l ≤ va) (hcov : m.start ≤ va ∧ va < m.stop) :
    ∃ mp, XeVm.lookupMapping (XeVm.clipMapping a l m) va = some mp ∧
      mp.isNull = m.isNull ∧ mp.userptr = m.userptr ∧
      mp.backing = m.backing ∧
      mp.backingOffset + (va - mp.start) =
        m.backingOffset + (va - m.start) := by
  unfold XeVm.clipMapping
  by_cases hov : XeVm.overlapsRange a l m = true
  · rcases XeVm.overlapsRange_true.mp hov with ⟨ho1, ho2⟩
    rw [if_pos hov]
    have hstopm : m.stop = m.start + m.len := rfl
    rcases hva with hva | hva
    · have hfr : m.start < a := by omega
      rw [if_pos hfr, List.singleton_append]
      refine ⟨{ m with len := a - m.start }, ?_, rfl, rfl, rfl, rfl⟩
      unfold XeVm.lookupMapping
      exact List.find?_cons_of_pos _ (by
        simp only [Bool.and_eq_true, decide_eq_true_eq, XeVm.Mapping.stop]
        constructor <;> omega)
    · have hbk : a + l < m.stop := by omega
      rw [if_pos hbk]
      by_cases hfr : m.start < a
      · rw [if_pos hfr, List.singleton_append]
        refine ⟨{ m with start := a + l, len := m.stop - (a + l), backingOffset := m.backingOffset + (a + l - m.start) }, ?_, rfl, rfl, rfl, ?_⟩
        · unfold XeVm.lookupMapping
          rw [List.find?_cons_of_neg _ (by
            simp only [Bool.and_eq_true, decide_eq_true_eq,
              XeVm.Mapping.stop, not_and, Nat.not_lt]
            intro
            omega)]
          exact List.find?_cons_of_pos _ (by
            simp only [Bool.and_eq_true, decide_eq_true_eq,
              XeVm.Mapping.stop]
            constructor <;> omega)
        · show m.backingOffset + (a + l - m.start) + (va - (a + l)) =
            m.backingOffset + (va - m.start)
          omega
      · rw [if_neg hfr, List.nil_append]
        refine ⟨{ m with start := a + l, len := m.stop - (a + l), backingOffset := m.backingOffset + (a + l - m.start) }, ?_, rfl, rfl, rfl, ?_⟩
        · unfold XeVm.lookupMapping
          exact List.find?_cons_of_pos _ (by
            simp only [Bool.and_eq_true, decide_eq_true_eq,
              XeVm.Mapping.stop]
            constructor <;> omega)
        · show m.backingOffset + (a + l - m.start) + (va - (a + l)) =
            m.backingOffset + (va - m.start)
          omega
  · rw [if_neg hov]
    refine ⟨m, ?_, rfl, rfl, rfl, rfl⟩
    unfold XeVm.lookupMapping
    exact List.find?_cons_of_pos _ (by
      simp only [Bool.and_eq_true, decide_eq_true_eq]
      exact hcov)

theorem XeVm.translate_removeRange {a l va : Nat} (hva : va < a ∨ a + l ≤ va) :
    ∀ ms : List XeVm.Mapping,
      XeVm.translate (XeVm.removeRange a l ms) va = XeVm.translate ms va := by
  intro ms
  induction ms with
  | nil => rfl
  | cons m ms ih =>
      rw [XeVm.removeRange_cons]
      by_cases hcov : m.start ≤ va ∧ va < m.stop
      · obtain ⟨mp, hm, hn, hu, hb, ho⟩ := XeVm.lookup_clip_cover hva hcov
        have hcovm : XeVm.lookupMapping (m :: ms) va = some m := by
          unfold XeVm.lookupMapping
          rw [List.find?_cons_of_pos]
          simp only [Bool.and_eq_true, decide_eq_true_eq]
          exact hcov
        unfold XeVm.translate
        rw [XeVm.lookupMapping_append, hm, hcovm]
        show (if mp.isNull = true then none
            else some (mp.userptr, mp.backing,
              mp.backingOffset + (va - mp.start))) =
          (if m.isNull = true then none
            else some (m.userptr, m.backing,
              m.backingOffset + (va - m.start)))
        rw [hn, hu, hb, ho]
      · rw [XeVm.translate_append_none
          (XeVm.lookup_clip_none_of_not_cover hcov), ih,
          XeVm.translate_cons_not_cover hcov]

theorem XeVm.translate_append_single_not_cover {xs : List XeVm.Mapping}
    {va : Nat} {mk : XeVm.Mapping}
    (h : ¬(mk.start ≤ va ∧ va < mk.stop)) :
    XeVm.translate (xs ++ [mk]) va = XeVm.translate xs va := by
  cases hx : XeVm.lookupMapping xs va with
  | some mp => exact XeVm.translate_append_of_some hx
  | none =>
      rw [XeVm.translate_append_none hx, XeVm.translate_cons_not_cover h]
      unfold XeVm.translate
      rw [hx]
      rfl

theorem XeVm.translate_applyMap_outside {a l va bo boOff flags : Nat}
    {ms : List XeVm.Mapping} (hva : va < a ∨ a + l ≤ va) :
    XeVm.translate
      (XeVm.removeRange a l ms ++ [XeVm.mkMapping bo boOff a l flags]) va =
      XeVm.translate ms va := by
  rw [XeVm.translate_append_single_not_cover (by
      intro hc
      simp only [XeVm.mkMapping, XeVm.Mapping.stop] at hc
      omega),
    XeVm.translate_removeRange hva]

theorem XeVm.translate_applyMap_in_range {a l va bo boOff flags : Nat}
    {ms : List XeVm.Mapping} (h1 : a ≤ va) (h2 : va < a + l) :
    XeVm.translate
      (XeVm.removeRange a l ms ++ [XeVm.mkMapping bo boOff a l flags]) va =
      if Nat.testBit flags 2 then none
      else some (false, bo, boOff + (va - a)) := by
  rw [XeVm.translate_append_none (XeVm.lookup_removeRange_none ms h1 h2)]
  have hl : XeVm.lookupMapping [XeVm.mkMapping bo boOff a l flags] va =
      some (XeVm.mkMapping bo boOff a l flags) := by
    unfold XeVm.lookupMapping
    rw [List.find?_cons_of_pos]
    simp only [Bool.and_eq_true, decide_eq_true_eq, XeVm.mkMapping,
      XeVm.Mapping.stop]
    constructor <;> omega
  unfold XeVm.translate
  rw [hl]
  rfl

theorem XeVm.aligned_add_mul {p a s : Nat} (i : Nat) (ha : a % p = 0)
    (hs : s % p = 0) : (a + i * s) % p = 0 := by
  obtain ⟨x, hx⟩ := Nat.dvd_of_mod_eq_zero ha
  obtain ⟨y, hy⟩ := Nat.dvd_of_mod_eq_zero hs
  subst hx hy
  rw [show p * x + i * (p * y) = p * (x + i * y) by ring]
  exact Nat.mul_mod_right p _

theorem XeVm.arrayOps_length (bo size addr n : Nat) :
    (XeVm.arrayOps bo size addr n).length = n := by
  unfold XeVm.arrayOps
  rw [List.length_map, List.length_range]

theorem XeVm.arrayOps_succ (bo size addr k : Nat) :
    XeVm.arrayOps bo size addr (k + 1) =
      XeVm.arrayOps bo size addr k ++ [.map bo 0 (addr + k * size) size 0] := by
  unfold XeVm.arrayOps
  rw [List.range_succ, List.map_append]
  rfl

theorem XeVm.arrayOps_validate_none (E : XeVm.Engine) (bo size addr n : Nat)
    (hsize : size ≠ 0) (hsal : size % XeVm.pageSize = 0)
    (haal : addr % XeVm.pageSize = 0) :
    (XeVm.arrayOps bo size addr n).findSome? E.validateOp = none := by
  apply List.findSome?_eq_none_iff.mpr
  intro op hop
  unfold XeVm.arrayOps at hop
  obtain ⟨i, hi, rfl⟩ := List.mem_map.mp hop
  exact XeVm.validateOp_map_ok E bo 0 (addr + i * size) size 0 (by omega)
    hsize (XeVm.aligned_add_mul i haal hsal) hsal

theorem XeVm.arrayOps_fold_translate (bo size addr : Nat) :
    ∀ (k : Nat) (s : XeVm.VMState) (i va : Nat), i < k →
      addr + i * size ≤ va → va < addr + i * size + size →
      XeVm.translate
        (((XeVm.arrayOps bo size addr k).foldl
          XeVm.VMState.applyOp s).mappings) va =
        some (false, bo, 0 + (va - (addr + i * size))) := by
  intro k
  induction k with
  | zero => intro s i va h; exact absurd h (Nat.not_lt_zero i)
  | succ k ih =>
      intro s i va hik h1 h2
      rw [XeVm.arrayOps_succ, List.foldl_append, List.foldl_cons,
        List.foldl_nil]
      show XeVm.translate (XeVm.removeRange (addr + k * size) size
          (((XeVm.arrayOps bo size addr k).foldl
            XeVm.VMState.applyOp s).mappings) ++
          [XeVm.mkMapping bo 0 (addr + k * size) size 0]) va = _
      rcases Nat.lt_or_ge i k with hik2 | hik2
      · have he : (i + 1) * size = i * size + size := Nat.succ_mul i size
        have hmul : (i + 1) * size ≤ k * size :=
          Nat.mul_le_mul_right size hik2
        have hout : va < addr + k * size ∨ addr + k * size + size ≤ va := by
          left
          omega
        rw [XeVm.translate_applyMap_outside hout]
        exact ih s i va hik2 h1 h2
      · have hik3 : i = k := by omega
        subst hik3
        rw [XeVm.translate_applyMap_in_range h1 h2]
        rw [if_neg (by decide : ¬ Nat.testBit 0 2 = true)]

/-- C5: an array bind whose operation count cannot fit the driver's
internal queue depth while the queue is blocked fails with ENOBUFS and
applies none of its operations — the engine is returned unchanged, so
after the blocker drains the VM holds exactly what it held before the
failed call — and a subsequent array bind of one quarter the size on the
same VM succeeds, with every one of its k mappings usable: each address of
each bound range translates to the right cell of the backing object. -/
theorem C5_bind_array_enobufs_atomic (E : XeVm.Engine)
    (bo size addr n k : Nat) (hsize : size ≠ 0)
    (hsal : size % XeVm.pageSize = 0) (haal : addr % XeVm.pageSize = 0)
    (hover : E.depth < E.queue.length + n) (_hquarter : 4 * k ≤ n)
    (hfit : k ≤ E.depth) :
    E.submitBindArray (XeVm.arrayOps bo size addr n) =
      (E, some .ENOBUFS) ∧
    E.signalAll.submitBindArray (XeVm.arrayOps bo size addr k) =
      ({ E.signalAll with queue := XeVm.arrayOps bo size addr k }, none) ∧
    (∀ i va, i < k → addr + i * size ≤ va → va < addr + i * size + size →
      XeVm.translate ((E.signalAll.submitBindArray
          (XeVm.arrayOps bo size addr k)).1.signalAll.vm.mappings) va =
        some (false, bo, 0 + (va - (addr + i * size)))) := by
  have hsig : E.signalAll.submitBindArray (XeVm.arrayOps bo size addr k) =
      ({ E.signalAll with queue := XeVm.arrayOps bo size addr k }, none) := by
    have h0 := XeVm.submitBindArray_ok_intro
      (XeVm.arrayOps_validate_none E.signalAll bo size addr k hsize hsal haal)
      (by
        show (List.length ([] : List XeVm.BindOp)) +
          (XeVm.arrayOps bo size addr k).length ≤ E.depth
        rw [XeVm.arrayOps_length, List.length_nil]
        omega)
    exact h0
  refine ⟨?_, hsig, ?_⟩
  · unfold XeVm.Engine.submitBindArray
    rw [XeVm.arrayOps_validate_none E bo size addr n hsize hsal haal]
    show (if E.depth < E.queue.length + (XeVm.arrayOps bo size addr n).length
        then (E, some XeVm.VmErr.ENOBUFS)
      else ({ E with queue := E.queue ++ XeVm.arrayOps bo size addr n },
        none)) = (E, some XeVm.VmErr.ENOBUFS)
    rw [if_pos (by rw [XeVm.arrayOps_length]; omega)]
  · intro i va hik h1 h2
    rw [hsig]
    show XeVm.translate (((XeVm.arrayOps bo size addr k).foldl
        XeVm.VMState.applyOp E.signalAll.vm).mappings) va = _
    exact XeVm.arrayOps_fold_translate bo size addr k E.signalAll.vm i va
      hik h1 h2

/-- Witness for C5: on the demo engine with a blocked queue (depth 8, one
pending op), an 8-op array fails with ENOBUFS and a 2-op array then
succeeds with both mappings translating correctly. -/
theorem C5_bind_array_enobufs_atomic_witness :
    XeVm.demoBlocked.submitBindArray (XeVm.arrayOps 1 4096 1048576 8) =
      (XeVm.demoBlocked, some .ENOBUFS) ∧
    XeVm.demoBlocked.signalAll.submitBindArray
        (XeVm.arrayOps 1 4096 1048576 2) =
      ({ XeVm.demoBlocked.signalAll with
          queue := XeVm.arrayOps 1 4096 1048576 2 }, none) ∧
    (∀ i va, i < 2 → 1048576 + i * 4096 ≤ va →
      va < 1048576 + i * 4096 + 4096 →
      XeVm.translate ((XeVm.demoBlocked.signalAll.submitBindArray
          (XeVm.arrayOps 1 4096 1048576 2)).1.signalAll.vm.mappings) va =
        some (false, 1, 0 + (va - (1048576 + i * 4096)))) :=
  C5_bind_array_enobufs_atomic XeVm.demoBlocked 1 4096 1048576 8 2
    (by omega) (by decide) (by decide) (by decide) (by omega) (by decide)

theorem XeVm.MDisjoint_of_sub {x y mx my : XeVm.Mapping}
    (hx1 : mx.start ≤ x.start) (hx2 : x.stop ≤ mx.stop)
    (hy1 : my.start ≤ y.start) (hy2 : y.stop ≤ my.stop)
    (h : XeVm.MDisjoint mx my) : XeVm.MDisjoint x y := by
  unfold XeVm.MDisjoint XeVm.Mapping.stop at *
  omega

theorem XeVm.pairwise_singleton_mapping (x : XeVm.Mapping) :
    ([x] : List XeVm.Mapping).Pairwise XeVm.MDisjoint :=
  List.Pairwise.cons (fun y hy => absurd hy (List.not_mem_nil y))
    List.Pairwise.nil

theorem XeVm.pairwise_clip (a l : Nat) (m : XeVm.Mapping) :
    (XeVm.clipMapping a l m).Pairwise XeVm.MDisjoint := by
  unfold XeVm.clipMapping
  by_cases hov : XeVm.overlapsRange a l m = true
  · rw [if_pos hov]
    by_cases hfr : m.start < a
    · rw [if_pos hfr]
      by_cases hbk : a + l < m.stop
      · rw [if_pos hbk, List.singleton_append]
        refine List.Pairwise.cons ?_ (XeVm.pairwise_singleton_mapping _)
        intro y hy
        rcases List.mem_singleton.mp hy with rfl
        unfold XeVm.MDisjoint XeVm.Mapping.stop
        dsimp only
        omega
      · rw [if_neg hbk, List.append_nil]
        exact XeVm.pairwise_singleton_mapping _
    · rw [if_neg hfr, List.nil_append]
      by_cases hbk : a + l < m.stop
      · rw [if_pos hbk]
        exact XeVm.pairwise_singleton_mapping _
      · rw [if_neg hbk]
        exact List.Pairwise.nil
  · rw [if_neg hov]
    exact XeVm.pairwise_singleton_mapping m

theorem XeVm.noOverlap_removeRange (a l : Nat) {ms : List XeVm.Mapping}
    (h : XeVm.NoOverlap ms) : XeVm.NoOverlap (XeVm.removeRange a l ms) := by
  induction ms with
  | nil => exact List.Pairwise.nil
  | cons m ms ih =>
      rcases List.pairwise_cons.mp h with ⟨hhead, htail⟩
      rw [XeVm.removeRange_cons]
      apply List.pairwise_append.mpr
      refine ⟨XeVm.pairwise_clip a l m, ih htail, ?_⟩
      intro x hx y hy
      obtain ⟨hx1, hx2, _, _, _⟩ := XeVm.mem_clipMapping hx
      obtain ⟨m', hm', hy'⟩ := XeVm.mem_removeRange hy
      obtain ⟨hy1, hy2, _, _, _⟩ := XeVm.mem_clipMapping hy'
      exact XeVm.MDisjoint_of_sub hx1 hx2 hy1 hy2 (hhead m' hm')

theorem XeVm.noOverlap_applyOp {s : XeVm.VMState} (op : XeVm.BindOp)
    (h : XeVm.NoOverlap s.mappings) :
    XeVm.NoOverlap (s.applyOp op).mappings := by
  cases op with
  | map bo boOff addr len flags =>
      show XeVm.NoOverlap (XeVm.removeRange addr len s.mappings ++
        [XeVm.mkMapping bo boOff addr len flags])
      apply List.pairwise_append.mpr
      refine ⟨XeVm.noOverlap_removeRange _ _ h,
        XeVm.pairwise_singleton_mapping _, ?_⟩
      intro x hx y hy
      rcases List.mem_singleton.mp hy with rfl
      obtain ⟨m', hm', hx'⟩ := XeVm.mem_removeRange hx
      rcases XeVm.mem_clipMapping_avoids hx' with hd | hd
      · exact Or.inl hd
      · exact Or.inr hd
  | mapUserptr hostAddr addr len flags =>
      show XeVm.NoOverlap (XeVm.removeRange addr len s.mappings ++
        [XeVm.mkUserptrMapping hostAddr addr len])
      apply List.pairwise_append.mpr
      refine ⟨XeVm.noOverlap_removeRange _ _ h,
        XeVm.pairwise_singleton_mapping _, ?_⟩
      intro x hx y hy
      rcases List.mem_singleton.mp hy with rfl
      obtain ⟨m', hm', hx'⟩ := XeVm.mem_removeRange hx
      rcases XeVm.mem_clipMapping_avoids hx' with hd | hd
      · exact Or.inl hd
      · exact Or.inr hd
  | unmap addr len => exact XeVm.noOverlap_removeRange _ _ h
  | unmapAll bo => exact List.Pairwise.filter _ h

theorem XeVm.foldl_noOverlap (q : List XeVm.BindOp) :
    ∀ {s : XeVm.VMState}, XeVm.NoOverlap s.mappings →
      XeVm.NoOverlap ((q.foldl XeVm.VMState.applyOp s).mappings) := by
  induction q with
  | nil => intro s h; exact h
  | cons op q ih =>
      intro s h
      rw [List.foldl_cons]
      exact ih (XeVm.noOverlap_applyOp op h)

theorem XeVm.gpuStore_mappings (E : XeVm.Engine) (va v : Nat) :
    (E.gpuStore va v).vm.mappings = E.vm.mappings := by
  unfold XeVm.Engine.gpuStore
  split
  · rfl
  · split
    · rfl
    · split
      · dsimp only
        split
        · rfl
        · rfl
      · rfl

theorem XeVm.gpuStore_queue (E : XeVm.Engine) (va v : Nat) :
    (E.gpuStore va v).queue = E.queue := by
  unfold XeVm.Engine.gpuStore
  split
  · rfl
  · split
    · rfl
    · split
      · dsimp only
        split
        · rfl
        · rfl
      · rfl

theorem XeVm.applyOp_mappings_congr {s1 s2 : XeVm.VMState}
    (h : s1.mappings = s2.mappings) (op : XeVm.BindOp) :
    (s1.applyOp op).mappings = (s2.applyOp op).mappings := by
  cases op <;> simp only [XeVm.VMState.applyOp] <;> rw [h]

theorem XeVm.foldl_applyOp_mappings_congr (q : List XeVm.BindOp) :
    ∀ {s1 s2 : XeVm.VMState}, s1.mappings = s2.mappings →
      (q.foldl XeVm.VMState.applyOp s1).mappings =
        (q.foldl XeVm.VMState.applyOp s2).mappings := by
  induction q with
  | nil => intro s1 s2 h; exact h
  | cons op q ih =>
      intro s1 s2 h
      rw [List.foldl_cons, List.foldl_cons]
      exact ih (XeVm.applyOp_mappings_congr h op)

/-- C3: in every state of a VirtualMachine reachable from a fresh VM
through submissions, fence completions and GPU stores, once all submitted
operations' fences have signaled (the queue is drained), no two live
Mappings' intervals intersect; and a MAP over an already-bound range
replaces the overlapped portion of any prior Mapping — afterwards every
address of the mapped range resolves to the new Mapping, not to a
coexisting old one. -/
theorem C3_no_overlap_invariant (depth : Nat) (hM hR : Nat → Bool)
    (bM : Nat → Nat → Nat) (hMem : Nat → Nat) (E : XeVm.Engine)
    (hreach : XeVm.Reachable (XeVm.initEngine depth hM hR bM hMem) E)
    (hq : E.queue = []) :
    XeVm.NoOverlap E.vm.mappings ∧
    (∀ bo boOff addr len flags va, addr ≤ va → va < addr + len →
      XeVm.lookupMapping
        ((E.vm.applyOp (.map bo boOff addr len flags)).mappings) va =
        some (XeVm.mkMapping bo boOff addr len flags)) := by
  constructor
  · have hinv : ∀ F, XeVm.Reachable (XeVm.initEngine depth hM hR bM hMem) F →
        XeVm.NoOverlap ((F.queue.foldl XeVm.VMState.applyOp F.vm).mappings) := by
      intro F hF
      induction hF with
      | refl => exact List.Pairwise.nil
      | @tail b c hsteps hstep ih =>
          cases hstep with
          | submit op e2 hsub =>
              obtain ⟨he2, _, _⟩ := XeVm.submitBind_ok hsub
              subst he2
              show XeVm.NoOverlap (((b.queue ++ [op]).foldl
                XeVm.VMState.applyOp b.vm).mappings)
              rw [List.foldl_append, List.foldl_cons, List.foldl_nil]
              exact XeVm.noOverlap_applyOp op ih
          | submitArray ops e2 hsub =>
              obtain ⟨he2, _, _⟩ := XeVm.submitBindArray_ok hsub
              subst he2
              show XeVm.NoOverlap (((b.queue ++ ops).foldl
                XeVm.VMState.applyOp b.vm).mappings)
              rw [List.foldl_append]
              exact XeVm.foldl_noOverlap ops ih
          | signal => exact ih
          | store va v =>
              show XeVm.NoOverlap (((b.gpuStore va v).queue.foldl
                XeVm.VMState.applyOp (b.gpuStore va v).vm).mappings)
              rw [XeVm.gpuStore_queue,
                XeVm.foldl_applyOp_mappings_congr b.queue
                  (XeVm.gpuStore_mappings b va v)]
              exact ih
    have h0 := hinv E hreach
    rw [hq, List.foldl_nil] at h0
    exact h0
  · intro bo boOff addr len flags va h1 h2
    show XeVm.lookupMapping (XeVm.removeRange addr len E.vm.mappings ++
      [XeVm.mkMapping bo boOff addr len flags]) va = _
    rw [XeVm.lookupMapping_append,
      XeVm.lookup_removeRange_none _ h1 h2, Option.none_or]
    unfold XeVm.lookupMapping
    exact List.find?_cons_of_pos _ (by
      simp only [Bool.and_eq_true, decide_eq_true_eq, XeVm.mkMapping,
        XeVm.Mapping.stop]
      constructor <;> omega)

/-- Witness for C3: the state reached by submitting one MAP on a fresh VM
and letting its fence signal satisfies the no-overlap invariant and the
replacement property. -/
theorem C3_no_overlap_invariant_witness :
    XeVm.NoOverlap
      (XeVm.Engine.signalAll { XeVm.demoEngine with
        queue := [.map 1 0 4096 4096 0] }).vm.mappings ∧
    (∀ bo boOff addr len flags va, addr ≤ va → va < addr + len →
      XeVm.lookupMapping
        (((XeVm.Engine.signalAll { XeVm.demoEngine with
          queue := [.map 1 0 4096 4096 0] }).vm.applyOp
            (.map bo boOff addr len flags)).mappings) va =
        some (XeVm.mkMapping bo boOff addr len flags)) :=
  C3_no_overlap_invariant 8 (fun _ => true) (fun _ => true) (fun _ _ => 7)
    (fun _ => 0) _
    (Relation.ReflTransGen.tail
      (Relation.ReflTransGen.tail Relation.ReflTransGen.refl
        (XeVm.Step.submit _ (.map 1 0 4096 4096 0) _ rfl))
      (XeVm.Step.signal _))
    rfl
